import Mathlib

set_option maxHeartbeats 2000000

/-! # Civil (proleptic Gregorian) calendar arithmetic

Model of the calendar arithmetic underlying ECMAScript `Date` in a fixed local
time zone with no DST: a time value is an integer count of milliseconds since
1970-01-01T00:00:00.000 and calendar fields are obtained from the day number by
the Gregorian civil-date correspondence. `daysFromCivil` gives the day number of
a civil date (validated below against the ECMAScript `DayFromYear` formula) and
`civilFromDays` is its proven two-sided inverse. -/

structure CivilDate where
  year : Int
  month : Int
  day : Int
deriving DecidableEq, Repr

/-- Day-of-era at which shifted year-of-era `t` starts (shifted years run
Mar 1 .. end of Feb; one era = 400 Gregorian years = 146097 days). -/
def seStart (t : Int) : Int := 365 * t + t / 4 - t / 100 + t / 400

/-- Year-of-era containing day-of-era `doe`: guess `doe / 366` and correct by one. -/
def yoeOf (doe : Int) : Int :=
  if doe < seStart (doe / 366 + 1) then doe / 366 else doe / 366 + 1

/-- Day-of-shifted-year at which shifted month `mp` starts (0 = March .. 11 = February). -/
def mpStart (mp : Int) : Int := (153 * mp + 2) / 5

/-- Shifted month containing day-of-shifted-year `doy`. -/
def mpOf (doy : Int) : Int := (5 * doy + 2) / 153

/-- Day number (days since 1970-01-01) of the civil date `y-m-d`, `m` in 1..12. -/
def daysFromCivil (y m d : Int) : Int :=
  let y' := if m ≤ 2 then y - 1 else y
  let era := y' / 400
  let yoe := y' - era * 400
  let mp := if 2 < m then m - 3 else m + 9
  era * 146097 + seStart yoe + mpStart mp + d - 1 - 719468

/-- Civil date of day-of-era `doe` within era `era`. -/
def civilOfEraDoe (era doe : Int) : CivilDate :=
  let yoe := yoeOf doe
  let doy := doe - seStart yoe
  let mp := mpOf doy
  let d := doy - mpStart mp + 1
  let m := if mp < 10 then mp + 3 else mp - 9
  ⟨if m ≤ 2 then era * 400 + yoe + 1 else era * 400 + yoe, m, d⟩

/-- Civil date of a day number; inverse of `daysFromCivil`. -/
def civilFromDays (z : Int) : CivilDate :=
  civilOfEraDoe ((z + 719468) / 146097) (z + 719468 - (z + 719468) / 146097 * 146097)

/-- Gregorian leap-year predicate. -/
def IsLeap (y : Int) : Prop := y % 4 = 0 ∧ (y % 100 ≠ 0 ∨ y % 400 = 0)

instance : DecidablePred IsLeap := fun y => by unfold IsLeap; infer_instance

/-- Number of days in civil month `m` of year `y`. -/
def daysInMonth (y m : Int) : Int :=
  if m = 2 then (if IsLeap y then 29 else 28)
  else if m = 4 ∨ m = 6 ∨ m = 9 ∨ m = 11 then 30
  else 31

-- Sanity anchors for the calendar model.
example : daysFromCivil 1970 1 1 = 0 := by decide
example : daysFromCivil 2024 2 29 = 19782 := by decide
example : civilFromDays 19782 = ⟨2024, 2, 29⟩ := by decide
example : civilFromDays 0 = ⟨1970, 1, 1⟩ := by decide
example : civilFromDays (-1) = ⟨1969, 12, 31⟩ := by decide
example : daysInMonth 2024 2 = 29 := by decide
example : daysInMonth 2023 2 = 28 := by decide
example : daysInMonth 1900 2 = 28 := by decide
example : daysInMonth 2000 2 = 29 := by decide

/-- `daysFromCivil` at Jan 1 agrees with the ECMAScript `DayFromYear` formula. -/
theorem daysFromCivil_jan1 (y : Int) :
    daysFromCivil y 1 1 =
      365 * (y - 1970) + (y - 1969) / 4 - (y - 1901) / 100 + (y - 1601) / 400 := by
  simp only [daysFromCivil, seStart, mpStart]
  omega

theorem yoeOf_spec {doe : Int} (h0 : 0 ≤ doe) (h1 : doe ≤ 146096) :
    0 ≤ yoeOf doe ∧ yoeOf doe ≤ 399 ∧ seStart (yoeOf doe) ≤ doe ∧
      doe < seStart (yoeOf doe + 1) := by
  unfold yoeOf seStart
  split <;> omega

theorem yoe_unique {doe t t' : Int} (hb : t ≤ 399) (hc : 0 ≤ t') (hd : t' ≤ 399)
    (h1 : seStart t ≤ doe) (h2 : doe < seStart (t + 1))
    (h3 : seStart t' ≤ doe) (h4 : doe < seStart (t' + 1)) :
    t = t' := by
  unfold seStart at *
  rcases lt_trichotomy t t' with h | h | h
  · exfalso
    have k1 : (t+1)/4 ≤ t'/4 := by omega
    have k2 : t'/100 ≤ (t+1)/100 + (t' - t - 1 + 99)/100 := by omega
    have k3 : (t+1)/400 ≤ t'/400 := by omega
    omega
  · exact h
  · exfalso
    have k1 : (t'+1)/4 ≤ t/4 := by omega
    have k2 : t/100 ≤ (t'+1)/100 + (t - t' - 1 + 99)/100 := by omega
    have k3 : (t'+1)/400 ≤ t/400 := by omega
    omega

theorem mpOf_spec {doy : Int} (h0 : 0 ≤ doy) (h1 : doy ≤ 365) :
    0 ≤ mpOf doy ∧ mpOf doy ≤ 11 ∧ mpStart (mpOf doy) ≤ doy ∧ doy < mpStart (mpOf doy + 1) := by
  unfold mpOf mpStart
  omega

theorem mp_unique {doy mp mp' : Int} (hb : mp ≤ 11) (hc : 0 ≤ mp') (hd : mp' ≤ 11)
    (h1 : mpStart mp ≤ doy) (h2 : doy < mpStart (mp + 1))
    (h3 : mpStart mp' ≤ doy) (h4 : doy < mpStart (mp' + 1)) :
    mp = mp' := by
  unfold mpStart at *
  omega

theorem seStart_succ_bounds (t : Int) (h0 : 0 ≤ t) (h1 : t ≤ 399) :
    365 ≤ seStart (t + 1) - seStart t ∧ seStart (t + 1) - seStart t ≤ 366 := by
  unfold seStart
  omega

theorem seStart_le_146097 (t : Int) (h0 : 0 ≤ t) (h1 : t ≤ 400) : seStart t ≤ 146097 := by
  unfold seStart
  omega

theorem seStart_nonneg (t : Int) (h0 : 0 ≤ t) : 0 ≤ seStart t := by
  unfold seStart
  omega

theorem mpStart_nonneg (mp : Int) (h0 : 0 ≤ mp) : 0 ≤ mpStart mp := by
  unfold mpStart
  omega

/-- A non-leap civil year gives a 365-day shifted year-of-era. -/
theorem seStart_succ_nonleap (era yoe : Int) (h0 : 0 ≤ yoe) (h1 : yoe ≤ 399)
    (hl : ¬ IsLeap (era * 400 + yoe + 1)) : seStart (yoe + 1) - seStart yoe = 365 := by
  simp only [IsLeap] at hl
  simp only [seStart]
  omega

/-- Characterization of `civilFromDays` on an explicitly decomposed day number. -/
theorem civilFromDays_decomp (z era yoe mp dd : Int)
    (hz : z + 719468 = era * 146097 + seStart yoe + mpStart mp + dd - 1)
    (hy0 : 0 ≤ yoe) (hy1 : yoe ≤ 399) (hm0 : 0 ≤ mp) (hm1 : mp ≤ 11) (hd1 : 1 ≤ dd)
    (hmp : mpStart mp + dd - 1 < mpStart (mp + 1))
    (hyo : seStart yoe + mpStart mp + dd - 1 < seStart (yoe + 1)) :
    civilFromDays z =
      ⟨if (if mp < 10 then mp + 3 else mp - 9) ≤ 2 then era * 400 + yoe + 1 else era * 400 + yoe,
       if mp < 10 then mp + 3 else mp - 9, dd⟩ := by
  have hmp_nn : 0 ≤ mpStart mp := mpStart_nonneg mp hm0
  have hse_nn : 0 ≤ seStart yoe := seStart_nonneg yoe hy0
  have hse_top : seStart (yoe + 1) ≤ 146097 := seStart_le_146097 (yoe + 1) (by omega) (by omega)
  have hdoe0 : 0 ≤ seStart yoe + mpStart mp + dd - 1 := by omega
  have hdoe1 : seStart yoe + mpStart mp + dd - 1 ≤ 146096 := by omega
  have hred : civilFromDays z = civilOfEraDoe era (seStart yoe + mpStart mp + dd - 1) := by
    unfold civilFromDays
    have he : (z + 719468) / 146097 = era := by omega
    rw [he]
    have hd : z + 719468 - era * 146097 = seStart yoe + mpStart mp + dd - 1 := by omega
    rw [hd]
  rw [hred]
  obtain ⟨s0, s1, s2, s3⟩ := yoeOf_spec hdoe0 hdoe1
  have hyoe_eq : yoeOf (seStart yoe + mpStart mp + dd - 1) = yoe :=
    yoe_unique s1 hy0 hy1 s2 s3 (by omega) (by omega)
  have hdoy1 : seStart yoe + mpStart mp + dd - 1 - seStart yoe ≤ 365 := by
    have := seStart_succ_bounds yoe hy0 hy1
    omega
  have hdoy0 : 0 ≤ seStart yoe + mpStart mp + dd - 1 - seStart yoe := by omega
  obtain ⟨m0, m1, m2, m3⟩ := mpOf_spec hdoy0 hdoy1
  have hmp_eq : mpOf (seStart yoe + mpStart mp + dd - 1 - seStart yoe) = mp :=
    mp_unique m1 hm0 hm1 m2 m3 (by omega) (by omega)
  simp only [civilOfEraDoe, hyoe_eq, hmp_eq]
  have hdd : seStart yoe + mpStart mp + dd - 1 - seStart yoe - mpStart mp + 1 = dd := by omega
  rw [hdd]

/-- Within-month bound for the shifted month of a civil month `m ≤ 2`. -/
theorem mp_bound_low (y m d : Int) (h1 : 1 ≤ m) (h2 : m ≤ 2) (h4 : d ≤ daysInMonth y m) :
    mpStart (m + 9) + d - 1 < mpStart (m + 9 + 1) := by
  simp only [daysInMonth, IsLeap] at h4
  simp only [mpStart]
  split_ifs at h4 <;> interval_cases m <;> omega

/-- Within-month bound for the shifted month of a civil month `m ≥ 3`. -/
theorem mp_bound_high (y m d : Int) (h1 : 3 ≤ m) (h2 : m ≤ 12) (h4 : d ≤ daysInMonth y m) :
    mpStart (m - 3) + d - 1 < mpStart (m - 3 + 1) := by
  simp only [daysInMonth, IsLeap] at h4
  simp only [mpStart]
  split_ifs at h4 <;> interval_cases m <;> omega

/-- Within-shifted-year bound for a civil month `m ≤ 2` (January / February); the
February leap day exists exactly in a 366-day shifted year. -/
theorem yo_bound_low (y m d : Int) (h1 : 1 ≤ m) (h2 : m ≤ 2) (h3 : 1 ≤ d)
    (h4 : d ≤ daysInMonth y m) :
    seStart (y - 1 - (y-1)/400 * 400) + mpStart (m + 9) + d - 1 <
      seStart (y - 1 - (y-1)/400 * 400 + 1) := by
  simp only [daysInMonth, IsLeap] at h4
  simp only [mpStart, seStart]
  split_ifs at h4 <;> interval_cases m <;> omega

/-- Within-shifted-year bound for a civil month `m ≥ 3`. -/
theorem yo_bound_high (y m d : Int) (h1 : 3 ≤ m) (h2 : m ≤ 12) (h3 : 1 ≤ d)
    (h4 : d ≤ daysInMonth y m) :
    seStart (y - y/400 * 400) + mpStart (m - 3) + d - 1 <
      seStart (y - y/400 * 400 + 1) := by
  simp only [daysInMonth, IsLeap] at h4
  simp only [mpStart, seStart]
  split_ifs at h4 <;> interval_cases m <;> omega

/-- Roundtrip A: `civilFromDays` inverts `daysFromCivil` on valid civil dates. -/
theorem civilFromDays_daysFromCivil {y m d : Int} (h1 : 1 ≤ m) (h2 : m ≤ 12)
    (h3 : 1 ≤ d) (h4 : d ≤ daysInMonth y m) :
    civilFromDays (daysFromCivil y m d) = ⟨y, m, d⟩ := by
  by_cases hm2 : m ≤ 2
  · -- January / February: shifted month mp = m + 9 ∈ {10, 11}
    have hz : daysFromCivil y m d + 719468 =
        (y-1)/400 * 146097 + seStart (y - 1 - (y-1)/400 * 400) + mpStart (m + 9) + d - 1 := by
      unfold daysFromCivil
      simp only [if_pos hm2, if_neg (by omega : ¬ (2 < m))]
      omega
    have hres := civilFromDays_decomp (daysFromCivil y m d) ((y-1)/400)
        (y - 1 - (y-1)/400 * 400) (m + 9) d hz (by omega) (by omega) (by omega) (by omega) h3
        (mp_bound_low y m d h1 hm2 h4) (yo_bound_low y m d h1 hm2 h3 h4)
    rw [hres]
    have hif1 : ((if m + 9 < 10 then m + 9 + 3 else m + 9 - 9) : Int) = m := by
      rw [if_neg (by omega)]
      omega
    rw [hif1]
    simp only [CivilDate.mk.injEq, and_true]
    rw [if_pos hm2]
    omega
  · -- March .. December: shifted month mp = m - 3 ∈ 0..9, same civil year
    have hm3 : 3 ≤ m := by omega
    have hz : daysFromCivil y m d + 719468 =
        y/400 * 146097 + seStart (y - y/400 * 400) + mpStart (m - 3) + d - 1 := by
      unfold daysFromCivil
      simp only [if_neg hm2, if_pos (by omega : 2 < m)]
      omega
    have hres := civilFromDays_decomp (daysFromCivil y m d) (y/400)
        (y - y/400 * 400) (m - 3) d hz (by omega) (by omega) (by omega) (by omega) h3
        (mp_bound_high y m d hm3 h2 h4) (yo_bound_high y m d hm3 h2 h3 h4)
    rw [hres]
    have hif1 : ((if m - 3 < 10 then m - 3 + 3 else m - 3 - 9) : Int) = m := by
      rw [if_pos (by omega)]
      omega
    rw [hif1]
    simp only [CivilDate.mk.injEq, and_true]
    rw [if_neg hm2]
    omega

/-- Roundtrip B: `civilFromDays` produces a valid civil date mapped back by
`daysFromCivil`. -/
theorem daysFromCivil_civilFromDays (z : Int) :
    1 ≤ (civilFromDays z).month ∧ (civilFromDays z).month ≤ 12 ∧
    1 ≤ (civilFromDays z).day ∧
    (civilFromDays z).day ≤ daysInMonth (civilFromDays z).year (civilFromDays z).month ∧
    daysFromCivil (civilFromDays z).year (civilFromDays z).month (civilFromDays z).day = z := by
  obtain ⟨era, doe, hsplit, hd0, hd1⟩ :
      ∃ era doe, z + 719468 = era * 146097 + doe ∧ 0 ≤ doe ∧ doe ≤ 146096 :=
    ⟨(z + 719468) / 146097, z + 719468 - (z + 719468) / 146097 * 146097, by omega, by omega,
      by omega⟩
  have hred : civilFromDays z = civilOfEraDoe era doe := by
    unfold civilFromDays
    have he : (z + 719468) / 146097 = era := by omega
    rw [he]
    have hd : z + 719468 - era * 146097 = doe := by omega
    rw [hd]
  obtain ⟨s0, s1, s2, s3⟩ := yoeOf_spec hd0 hd1
  obtain ⟨yoe, hyoe_eq⟩ : ∃ x, yoeOf doe = x := ⟨_, rfl⟩
  rw [hyoe_eq] at s0 s1 s2 s3
  obtain ⟨doy, hdoy_eq⟩ : ∃ x, doe - seStart yoe = x := ⟨_, rfl⟩
  have hyb := seStart_succ_bounds yoe s0 s1
  have hdoy0 : 0 ≤ doy := by omega
  have hdoy1 : doy ≤ 365 := by omega
  obtain ⟨m0, m1, m2, m3⟩ := mpOf_spec hdoy0 hdoy1
  obtain ⟨mp, hmp_eq⟩ : ∃ x, mpOf doy = x := ⟨_, rfl⟩
  rw [hmp_eq] at m0 m1 m2 m3
  have hciv : civilFromDays z =
      ⟨if (if mp < 10 then mp + 3 else mp - 9) ≤ 2 then era * 400 + yoe + 1 else era * 400 + yoe,
       if mp < 10 then mp + 3 else mp - 9, doy - mpStart mp + 1⟩ := by
    rw [hred]
    simp only [civilOfEraDoe, hyoe_eq, hdoy_eq, hmp_eq]
  rw [hciv]
  by_cases hmp10 : mp < 10
  · have hgt : ¬ (mp + 3 ≤ 2) := by omega
    simp only [if_pos hmp10, if_neg hgt]
    refine ⟨by omega, by omega, by omega, ?_, ?_⟩
    · -- day bound for the months March .. December
      simp only [daysInMonth]
      rw [if_neg (by omega : ¬ (mp + 3 = 2))]
      simp only [mpStart] at m2 m3 ⊢
      split_ifs <;> omega
    · -- reassembly
      unfold daysFromCivil
      simp only [if_neg hgt, if_pos (by omega : 2 < mp + 3)]
      have hyoe400 : (era * 400 + yoe) / 400 = era := by omega
      have hmp3 : mp + 3 - 3 = mp := by omega
      rw [hmp3, hyoe400]
      have hyoe_r : era * 400 + yoe - era * 400 = yoe := by omega
      rw [hyoe_r]
      omega
  · have hle : mp - 9 ≤ 2 := by omega
    simp only [if_neg hmp10, if_pos hle]
    refine ⟨by omega, by omega, by omega, ?_, ?_⟩
    · -- day bound for January / February
      simp only [daysInMonth]
      by_cases hmf : mp - 9 = 2
      · -- February: the leap day exists exactly in a 366-day shifted year
        rw [if_pos hmf]
        have hmp11 : mp = 11 := by omega
        subst hmp11
        by_cases hl : IsLeap (era * 400 + yoe + 1)
        · rw [if_pos hl]
          simp only [mpStart] at m2 ⊢
          omega
        · rw [if_neg hl]
          have h365 := seStart_succ_nonleap era yoe s0 s1 hl
          simp only [mpStart] at m2 ⊢
          omega
      · rw [if_neg hmf, if_neg (by omega : ¬ (mp - 9 = 4 ∨ mp - 9 = 6 ∨ mp - 9 = 9 ∨ mp - 9 = 11))]
        have hmp10' : mp = 10 := by omega
        subst hmp10'
        simp only [mpStart] at m2 m3 ⊢
        omega
    · -- reassembly
      unfold daysFromCivil
      simp only [if_pos hle, if_neg (by omega : ¬ (2 < mp - 9))]
      have hstep : era * 400 + yoe + 1 - 1 = era * 400 + yoe := by omega
      rw [hstep]
      have hyoe400 : (era * 400 + yoe) / 400 = era := by omega
      rw [hyoe400]
      have hmp9 : mp - 9 + 9 = mp := by omega
      have hyoe_r : era * 400 + yoe - era * 400 = yoe := by omega
      rw [hmp9, hyoe_r]
      omega

/-- `daysFromCivil` is linear in the day component. -/
theorem daysFromCivil_linear (y m d : Int) :
    daysFromCivil y m d = daysFromCivil y m 1 + d - 1 := by
  simp only [daysFromCivil]
  split_ifs <;> omega

theorem jan1_mono {y y' : Int} (h : y ≤ y') : daysFromCivil y 1 1 ≤ daysFromCivil y' 1 1 := by
  rw [daysFromCivil_jan1, daysFromCivil_jan1]
  have k1 : (y-1969)/4 ≤ (y'-1969)/4 := by omega
  have k2 : (y'-1901)/100 ≤ (y-1901)/100 + (y'-y+99)/100 := by omega
  have k3 : (y-1601)/400 ≤ (y'-1601)/400 := by omega
  omega

/-- The day after Dec 31 is Jan 1 of the next year. -/
theorem jan1_succ (y : Int) : daysFromCivil (y+1) 1 1 = daysFromCivil y 12 31 + 1 := by
  simp only [daysFromCivil, mpStart, show (y:Int) + 1 - 1 = y from by ring]
  split_ifs <;> omega

/-- The first day of the month after month `m` (rolling over at December). -/
theorem month_adjacent (y m : Int) (h1 : 1 ≤ m) (h2 : m ≤ 12) :
    (if m = 12 then daysFromCivil (y+1) 1 1 else daysFromCivil y (m+1) 1) =
      daysFromCivil y m 1 + daysInMonth y m := by
  simp only [daysFromCivil, seStart, mpStart, daysInMonth, IsLeap]
  split_ifs <;> interval_cases m <;> omega

/-- Any valid day of (y, m) lies between Jan 1 and Dec 31 of year `y`. -/
theorem day_within_year (y m d : Int) (h1 : 1 ≤ m) (h2 : m ≤ 12) (h3 : 1 ≤ d)
    (h4 : d ≤ daysInMonth y m) :
    daysFromCivil y 1 1 ≤ daysFromCivil y m d ∧ daysFromCivil y m d ≤ daysFromCivil y 12 31 := by
  simp only [daysFromCivil, seStart, mpStart, daysInMonth, IsLeap] at h4 ⊢
  split_ifs at h4 ⊢ <;> interval_cases m <;> omega

/-- Membership of a day number in a civil month, as a range condition. -/
theorem month_mem (z y m : Int) (h1 : 1 ≤ m) (h2 : m ≤ 12) :
    ((civilFromDays z).year = y ∧ (civilFromDays z).month = m) ↔
      (daysFromCivil y m 1 ≤ z ∧ z ≤ daysFromCivil y m 1 + daysInMonth y m - 1) := by
  constructor
  · rintro ⟨hy, hm⟩
    obtain ⟨b1, b2, b3, b4, b5⟩ := daysFromCivil_civilFromDays z
    rw [hy, hm] at b4 b5
    rw [daysFromCivil_linear] at b5
    omega
  · rintro ⟨hlo, hhi⟩
    have hdim : 1 ≤ daysInMonth y m := by
      simp only [daysInMonth]
      split_ifs <;> omega
    have hz : z = daysFromCivil y m (z - daysFromCivil y m 1 + 1) := by
      rw [daysFromCivil_linear]
      omega
    rw [hz, civilFromDays_daysFromCivil h1 h2 (by omega) (by omega)]
    exact ⟨rfl, rfl⟩

/-- Membership of a day number in a civil year, as a range condition. -/
theorem year_mem (z y : Int) :
    ((civilFromDays z).year = y) ↔
      (daysFromCivil y 1 1 ≤ z ∧ z ≤ daysFromCivil y 12 31) := by
  constructor
  · intro hy
    obtain ⟨b1, b2, b3, b4, b5⟩ := daysFromCivil_civilFromDays z
    rw [hy] at b4 b5
    have := day_within_year y (civilFromDays z).month (civilFromDays z).day b1 b2 b3 b4
    omega
  · rintro ⟨hlo, hhi⟩
    obtain ⟨b1, b2, b3, b4, b5⟩ := daysFromCivil_civilFromDays z
    by_contra hne
    rcases lt_trichotomy (civilFromDays z).year y with h | h | h
    · -- z within year (civilFromDays z).year, which ends before Jan 1 of y
      have hw := day_within_year (civilFromDays z).year (civilFromDays z).month
        (civilFromDays z).day b1 b2 b3 b4
      have hj := jan1_succ (civilFromDays z).year
      have hm2 := jan1_mono (by omega : (civilFromDays z).year + 1 ≤ y)
      omega
    · exact hne h
    · have hw := day_within_year (civilFromDays z).year (civilFromDays z).month
        (civilFromDays z).day b1 b2 b3 b4
      have hj := jan1_succ y
      have hm2 := jan1_mono (by omega : y + 1 ≤ (civilFromDays z).year)
      omega

/-! ## ECMAScript `Date` operations (fixed local offset, no DST)

Each definition mirrors the corresponding ECMAScript abstract operation on time
values (milliseconds since the epoch): `Day`, `TimeWithinDay`, the `get*` field
accessors, `MakeDay`/`MakeDate` as used by the `Date` constructor (including the
legacy mapping of constructor years 0..99 to 1900..1999) and the `set*` mutators
(which do not apply the legacy year mapping). -/

def msPerDay : Int := 86400000

def jsDay (t : Int) : Int := t / 86400000

def timeWithinDay (t : Int) : Int := t % 86400000

def getFullYear (t : Int) : Int := (civilFromDays (jsDay t)).year

/-- JS months are 0-based. -/
def getMonth (t : Int) : Int := (civilFromDays (jsDay t)).month - 1

def getDate (t : Int) : Int := (civilFromDays (jsDay t)).day

/-- Day of week, 0 = Sunday (Jan 1 1970 was a Thursday = 4). -/
def getDay (t : Int) : Int := (jsDay t + 4) % 7

def getHours (t : Int) : Int := (t / 3600000) % 24
def getMinutes (t : Int) : Int := (t / 60000) % 60
def getSeconds (t : Int) : Int := (t / 1000) % 60
def getMilliseconds (t : Int) : Int := t % 1000

/-- ECMAScript `MakeDay` (month normalized into the year). -/
def makeDay (y m d : Int) : Int := daysFromCivil (y + m / 12) (m % 12 + 1) 1 + d - 1

/-- ECMAScript `MakeTime`. -/
def makeTime (h mi s ms : Int) : Int := h * 3600000 + mi * 60000 + s * 1000 + ms

/-- `new Date(y, m, d, h, mi, s, ms)` with the legacy two-digit-year mapping. -/
def mkDate (y m d h mi s ms : Int) : Int :=
  let yy := if 0 ≤ y ∧ y ≤ 99 then y + 1900 else y
  makeDay yy m d * 86400000 + makeTime h mi s ms

/-- `d.setHours(h, mi, s, ms)` (keeps the day). -/
def setHours (t h mi s ms : Int) : Int := jsDay t * 86400000 + makeTime h mi s ms

/-- `d.setDate(n)` (keeps year, month and time of day). -/
def setDate (t d : Int) : Int :=
  makeDay (getFullYear t) (getMonth t) d * 86400000 + timeWithinDay t

/-- `d.setMonth(m)` (keeps year, day-of-month and time of day). -/
def setMonth (t m : Int) : Int :=
  makeDay (getFullYear t) m (getDate t) * 86400000 + timeWithinDay t

/-- `d.setFullYear(y)` (keeps month, day-of-month and time of day). -/
def setFullYear (t y : Int) : Int :=
  makeDay y (getMonth t) (getDate t) * 86400000 + timeWithinDay t

-- Sanity anchors: 2024-02-15 12:30:00 local.
example : mkDate 2024 1 15 12 30 0 0 = 19768 * 86400000 + 45000000 := by decide
example : getFullYear (mkDate 2024 1 15 12 30 0 0) = 2024 := by decide
example : getMonth (mkDate 2024 1 15 12 30 0 0) = 1 := by decide
example : getDate (mkDate 2024 1 15 12 30 0 0) = 15 := by decide
example : getDay (mkDate 2024 1 15 12 30 0 0) = 4 := by decide

theorem getMonth_bounds (t : Int) : 0 ≤ getMonth t ∧ getMonth t ≤ 11 := by
  obtain ⟨b1, b2, _⟩ := daysFromCivil_civilFromDays (jsDay t)
  unfold getMonth
  omega

theorem getDate_bounds (t : Int) :
    1 ≤ getDate t ∧
      getDate t ≤ daysInMonth (getFullYear t) (getMonth t + 1) := by
  obtain ⟨b1, b2, b3, b4, b5⟩ := daysFromCivil_civilFromDays (jsDay t)
  unfold getDate getFullYear getMonth
  constructor
  · exact b3
  · have : (civilFromDays (jsDay t)).month - 1 + 1 = (civilFromDays (jsDay t)).month := by omega
    rw [this]
    exact b4

/-- `MakeDay` on an in-range month is a day of that civil month. -/
theorem makeDay_std (y m d : Int) (h0 : 0 ≤ m) (h1 : m ≤ 11) :
    makeDay y m d = daysFromCivil y (m + 1) 1 + d - 1 := by
  unfold makeDay
  rw [show m / 12 = 0 from by omega, show m % 12 = m from by omega, add_zero]

/-- Decomposition of a time value through its civil fields. -/
theorem jsDay_decomp (t : Int) :
    daysFromCivil (getFullYear t) (getMonth t + 1) 1 + getDate t - 1 = jsDay t := by
  obtain ⟨b1, b2, b3, b4, b5⟩ := daysFromCivil_civilFromDays (jsDay t)
  unfold getFullYear getMonth getDate
  rw [show (civilFromDays (jsDay t)).month - 1 + 1 = (civilFromDays (jsDay t)).month from by omega]
  rw [← daysFromCivil_linear]
  exact b5

/-- `setDate` lands on the stated day of the current month. -/
theorem jsDay_setDate (t n : Int) : jsDay (setDate t n) = jsDay t - getDate t + n := by
  unfold setDate
  obtain ⟨hm0, hm1⟩ := getMonth_bounds t
  rw [makeDay_std (getFullYear t) (getMonth t) n hm0 hm1]
  have hdec := jsDay_decomp t
  have htw : 0 ≤ timeWithinDay t ∧ timeWithinDay t < 86400000 := by
    unfold timeWithinDay
    omega
  unfold jsDay at *
  omega

theorem jsDay_setHours0 (t : Int) : setHours t 0 0 0 0 = jsDay t * 86400000 := by
  unfold setHours makeTime
  omega


/-! ## Data model (shapes used by src/storage.ts via @shared/schema)

`amount` is a decimal-precision string in the source; it is modelled by its
exact rational value: both `parseFloat` (in `MemStorage`) and SQL
`cast(amount as decimal)` (in `DatabaseStorage`) then read off that value.
`date` and `createdAt` are `Date` values, i.e. epoch milliseconds. -/

structure User where
  id : Int
  username : String
  password : String
deriving DecidableEq

structure Category where
  id : Int
  name : String
  icon : String
  color : String
deriving DecidableEq

structure Expense where
  id : Int
  userId : Int
  amount : ℚ
  categoryId : Int
  merchant : Option String
  description : Option String
  date : Int
  receiptUrl : Option String
  notes : Option String
  source : String
  createdAt : Int
deriving DecidableEq

/-- Join projection. `this.categories.get(id)!` yields `undefined` at run time
when the key is missing; that is modelled as `none`. -/
structure ExpenseWithCategory where
  exp : Expense
  category : Option Category
deriving DecidableEq

structure CategoryTotal where
  categoryId : Int
  categoryName : Option String
  total : ℚ
  color : Option String
  icon : Option String
deriving DecidableEq

structure InsertCategory where
  name : String
  icon : String
  color : String
deriving DecidableEq

structure InsertExpense where
  userId : Int
  amount : ℚ
  categoryId : Int
  merchant : Option String
  description : Option String
  date : Int
  receiptUrl : Option String
  notes : Option String
  source : Option String
deriving DecidableEq

/-- `Partial<InsertExpense>`: an outer `none` means the key is absent from the
patch (zod `.partial()` strips absent keys before the spread). -/
structure UpdateExpense where
  userId : Option Int
  amount : Option ℚ
  categoryId : Option Int
  merchant : Option (Option String)
  description : Option (Option String)
  date : Option Int
  receiptUrl : Option (Option String)
  notes : Option (Option String)
  source : Option String
deriving DecidableEq

/-! ## JS `Map` observed through insertion-ordered association lists -/

def mapGet {α : Type} (m : List (Int × α)) (k : Int) : Option α :=
  (m.find? (fun p => p.1 == k)).map (fun p => p.2)

def mapSet {α : Type} : List (Int × α) → Int → α → List (Int × α)
  | [], k, v => [(k, v)]
  | p :: rest, k, v => if p.1 = k then (k, v) :: rest else p :: mapSet rest k v

def mapDelete {α : Type} : List (Int × α) → Int → List (Int × α)
  | [], _ => []
  | p :: rest, k => if p.1 = k then rest else p :: mapDelete rest k

def mapValues {α : Type} (m : List (Int × α)) : List α := m.map (fun p => p.2)

/-! ## MemStorage -/

structure MemState where
  users : List (Int × User)
  categories : List (Int × Category)
  expenses : List (Int × Expense)
  currentUserId : Int
  currentCategoryId : Int
  currentExpenseId : Int
deriving DecidableEq

/-- `x || null` on an optional string field: `undefined`, `null` and `""` all
collapse to `null`. -/
def orNull (o : Option String) : Option String :=
  match o with
  | some s => if s = "" then none else some s
  | none => none

/-- `insertExpense.source || "manual"`. -/
def orManual (o : Option String) : String :=
  match o with
  | some s => if s = "" then "manual" else s
  | none => "manual"

/-- Constructor state: eight default categories, then six sample expenses
created at time `now`. -/
def initialState (now : Int) : MemState :=
  { users := []
    categories :=
      [ (1, ⟨1, "Food", "fas fa-utensils", "blue"⟩)
      , (2, ⟨2, "Transport", "fas fa-car", "green"⟩)
      , (3, ⟨3, "Shopping", "fas fa-shopping-bag", "purple"⟩)
      , (4, ⟨4, "Business", "fas fa-briefcase", "amber"⟩)
      , (5, ⟨5, "Entertainment", "fas fa-film", "red"⟩)
      , (6, ⟨6, "Health", "fas fa-heart", "pink"⟩)
      , (7, ⟨7, "Education", "fas fa-graduation-cap", "indigo"⟩)
      , (8, ⟨8, "Utilities", "fas fa-bolt", "yellow"⟩) ]
    expenses :=
      [ (1, ⟨1, 1, 15.50, 1, some "Starbucks", some "Morning coffee", now, none,
             some "Latte with extra shot", "manual", now⟩)
      , (2, ⟨2, 1, 45.80, 1, some "Thai Restaurant", some "Lunch meeting", now, none,
             some "Business lunch", "manual", now⟩)
      , (3, ⟨3, 1, 25.00, 2, some "Uber", some "Ride to airport", now - 86400000, none,
             none, "ai_scan", now⟩)
      , (4, ⟨4, 1, 120.00, 3, some "Amazon", some "Office supplies", now - 3 * 86400000, none,
             some "Desk organizers and notebooks", "bank_sync", now⟩)
      , (5, ⟨5, 1, 85.90, 8, some "Electric Company", some "Monthly electricity bill",
             now - 10 * 86400000, none, none, "bank_sync", now⟩)
      , (6, ⟨6, 1, 200.00, 4, some "Co-working Space", some "Monthly membership",
             now - 15 * 86400000, none, some "Premium plan with meeting rooms", "manual", now⟩) ]
    currentUserId := 1
    currentCategoryId := 9
    currentExpenseId := 7 }

def memCreateUser (s : MemState) (username password : String) : MemState × User :=
  let id := s.currentUserId
  let u : User := ⟨id, username, password⟩
  ({ s with users := mapSet s.users id u, currentUserId := id + 1 }, u)

def memCreateCategory (s : MemState) (ins : InsertCategory) : MemState × Category :=
  let id := s.currentCategoryId
  let c : Category := ⟨id, ins.name, ins.icon, ins.color⟩
  ({ s with categories := mapSet s.categories id c, currentCategoryId := id + 1 }, c)

def memCreateExpense (s : MemState) (ins : InsertExpense) (now : Int) : MemState × Expense :=
  let id := s.currentExpenseId
  let e : Expense :=
    { id := id
      userId := ins.userId
      amount := ins.amount
      categoryId := ins.categoryId
      merchant := orNull ins.merchant
      description := orNull ins.description
      date := ins.date
      receiptUrl := orNull ins.receiptUrl
      notes := orNull ins.notes
      source := orManual ins.source
      createdAt := now }
  ({ s with expenses := mapSet s.expenses id e, currentExpenseId := id + 1 }, e)

/-- `{...expense, ...updateData, date: updateData.date ? new Date(updateData.date)
: expense.date}`. -/
def applyUpdate (e : Expense) (u : UpdateExpense) : Expense :=
  { id := e.id
    userId := u.userId.getD e.userId
    amount := u.amount.getD e.amount
    categoryId := u.categoryId.getD e.categoryId
    merchant := u.merchant.getD e.merchant
    description := u.description.getD e.description
    date := u.date.getD e.date
    receiptUrl := u.receiptUrl.getD e.receiptUrl
    notes := u.notes.getD e.notes
    source := u.source.getD e.source
    createdAt := e.createdAt }

def memUpdateExpense (s : MemState) (id : Int) (u : UpdateExpense) :
    MemState × Option Expense :=
  match mapGet s.expenses id with
  | none => (s, none)
  | some e =>
      let e' := applyUpdate e u
      ({ s with expenses := mapSet s.expenses id e' }, some e')

def memDeleteExpense (s : MemState) (id : Int) : MemState × Bool :=
  (({ s with expenses := mapDelete s.expenses id }), (mapGet s.expenses id).isSome)

/-- Stable sort by date descending: the model of
`.sort((a, b) => new Date(b.date).getTime() - new Date(a.date).getTime())`. -/
def sortByDateDesc (l : List Expense) : List Expense :=
  l.insertionSort (fun a b => b.date ≤ a.date)

def withCategory (s : MemState) (e : Expense) : ExpenseWithCategory :=
  ⟨e, mapGet s.categories e.categoryId⟩

def memGetExpensesByUserId (s : MemState) (userId : Int) : List ExpenseWithCategory :=
  ((sortByDateDesc ((mapValues s.expenses).filter (fun e => e.userId == userId))).map
    (withCategory s))

def memGetExpensesByUserIdAndMonth (s : MemState) (userId year month : Int) :
    List ExpenseWithCategory :=
  ((sortByDateDesc ((mapValues s.expenses).filter (fun e =>
      e.userId == userId &&
        (getFullYear e.date == year && getMonth e.date == month - 1)))).map
    (withCategory s))

/-- Week window bounds used identically by both backends (`weekStart` /
`weekEnd` in the source). -/
def weekStartT (refT : Int) : Int :=
  setHours (setDate refT (getDate refT - getDay refT)) 0 0 0 0

def weekEndT (refT : Int) : Int :=
  setHours (setDate (weekStartT refT) (getDate (weekStartT refT) + 6)) 23 59 59 999

/-- The `switch (period)` filter of `MemStorage.getExpensesByUserIdAndPeriod`;
an unrecognized unit falls into `default: return false`. -/
def memPeriodFilter (period : String) (refT : Int) (e : Expense) : Bool :=
  if period = "day" then
    decide (civilFromDays (jsDay e.date) = civilFromDays (jsDay refT))
  else if period = "week" then
    decide (weekStartT refT ≤ e.date ∧ e.date ≤ weekEndT refT)
  else if period = "month" then
    decide (getFullYear e.date = getFullYear refT ∧ getMonth e.date = getMonth refT)
  else if period = "year" then
    decide (getFullYear e.date = getFullYear refT)
  else false

def memGetExpensesByUserIdAndPeriod (s : MemState) (userId : Int) (period : String)
    (refT : Int) : List ExpenseWithCategory :=
  ((sortByDateDesc ((mapValues s.expenses).filter (fun e =>
      e.userId == userId && memPeriodFilter period refT e))).map (withCategory s))

/-- `current + parseFloat(expense.amount)` accumulation into an
insertion-ordered map keyed by `categoryId`. -/
def bumpTotal : List (Int × ℚ) → Int → ℚ → List (Int × ℚ)
  | [], k, v => [(k, v)]
  | p :: rest, k, v => if p.1 = k then (p.1, p.2 + v) :: rest else p :: bumpTotal rest k v

def accumTotals (l : List ExpenseWithCategory) : List (Int × ℚ) :=
  l.foldl (fun acc r => bumpTotal acc r.exp.categoryId r.exp.amount) []

/-- Shared body of `getCategoryTotals` / `getCategoryTotalsByPeriod` in
`MemStorage` (the two TS bodies are textually identical): group the already
fetched expenses by category, attach metadata, sort by total descending. -/
def memCategoryTotalsFrom (s : MemState) (l : List ExpenseWithCategory) :
    List CategoryTotal :=
  ((accumTotals l).map (fun p =>
      let c := mapGet s.categories p.1
      { categoryId := p.1
        categoryName := c.map (fun x => x.name)
        total := p.2
        color := c.map (fun x => x.color)
        icon := c.map (fun x => x.icon) })).insertionSort (fun a b => b.total ≤ a.total)

def memGetCategoryTotals (s : MemState) (userId year month : Int) : List CategoryTotal :=
  memCategoryTotalsFrom s (memGetExpensesByUserIdAndMonth s userId year month)

def memGetCategoryTotalsByPeriod (s : MemState) (userId : Int) (period : String)
    (refT : Int) : List CategoryTotal :=
  memCategoryTotalsFrom s (memGetExpensesByUserIdAndPeriod s userId period refT)

/-! ## DatabaseStorage

The relational backend is modelled as range-filtered reads over the same
records: `db.select().from(expenses).innerJoin(categories, eq(categoryId, id))
.where(and(eq(userId, u), gte(date, start), lte(date, end))).orderBy(desc(date))`
becomes filter + stable sort + inner join on the state's lists. SQL leaves the
relative order of equal dates (and of equal totals) unspecified; the model fixes
it to the same stable sort used for `MemStorage`. -/

/-- Inner join to `categories` on `eq(expenses.categoryId, categories.id)`: a
row is dropped when its `categoryId` matches no category row (`categories.id`
is the primary key, so at most one row matches). -/
def dbJoinRows (s : MemState) (l : List Expense) : List ExpenseWithCategory :=
  l.filterMap (fun e =>
    ((mapValues s.categories).find? (fun c => c.id == e.categoryId)).map
      (fun c => ⟨e, some c⟩))

def dbGetExpensesByUserId (s : MemState) (userId : Int) : List ExpenseWithCategory :=
  dbJoinRows s (sortByDateDesc ((mapValues s.expenses).filter (fun e => e.userId == userId)))

def dbGetExpensesByUserIdAndMonth (s : MemState) (userId year month : Int) :
    List ExpenseWithCategory :=
  let startDate := mkDate year (month - 1) 1 0 0 0 0
  let endDate := mkDate year month 0 23 59 59 999
  dbJoinRows s (sortByDateDesc ((mapValues s.expenses).filter (fun e =>
    e.userId == userId && (decide (startDate ≤ e.date) && decide (e.date ≤ endDate)))))

/-- The `switch (period)` window resolution shared by
`DatabaseStorage.getExpensesByUserIdAndPeriod` and
`DatabaseStorage.getCategoryTotalsByPeriod`; the `default` branch throws
`Invalid period: ...` before any query is issued. -/
def dbPeriodRange (period : String) (refT : Int) : Except String (Int × Int) :=
  if period = "day" then
    .ok (setHours refT 0 0 0 0, setHours refT 23 59 59 999)
  else if period = "week" then
    .ok (weekStartT refT, weekEndT refT)
  else if period = "month" then
    .ok (mkDate (getFullYear refT) (getMonth refT) 1 0 0 0 0,
         mkDate (getFullYear refT) (getMonth refT + 1) 0 23 59 59 999)
  else if period = "year" then
    .ok (mkDate (getFullYear refT) 0 1 0 0 0 0,
         mkDate (getFullYear refT) 11 31 23 59 59 999)
  else .error ("Invalid period: " ++ period)

def dbRangeRows (s : MemState) (userId lo hi : Int) : List ExpenseWithCategory :=
  dbJoinRows s (sortByDateDesc ((mapValues s.expenses).filter (fun e =>
    e.userId == userId && (decide (lo ≤ e.date) && decide (e.date ≤ hi)))))

def dbGetExpensesByUserIdAndPeriod (s : MemState) (userId : Int) (period : String)
    (refT : Int) : Except String (List ExpenseWithCategory) :=
  (dbPeriodRange period refT).map (fun r => dbRangeRows s userId r.1 r.2)

/-- `sum(cast(amount as decimal)) ... group by category ... order by sum desc`
over the joined, range-filtered rows. -/
def dbCategoryTotalsFrom (s : MemState) (rows : List ExpenseWithCategory) :
    List CategoryTotal :=
  ((accumTotals rows).map (fun p =>
      let c := mapGet s.categories p.1
      { categoryId := p.1
        categoryName := c.map (fun x => x.name)
        total := p.2
        color := c.map (fun x => x.color)
        icon := c.map (fun x => x.icon) })).insertionSort (fun a b => b.total ≤ a.total)

def dbGetCategoryTotals (s : MemState) (userId year month : Int) : List CategoryTotal :=
  let startDate := mkDate year (month - 1) 1 0 0 0 0
  let endDate := mkDate year month 0 23 59 59 999
  dbCategoryTotalsFrom s (dbRangeRows s userId startDate endDate)

def dbGetCategoryTotalsByPeriod (s : MemState) (userId : Int) (period : String)
    (refT : Int) : Except String (List CategoryTotal) :=
  (dbPeriodRange period refT).map (fun r => dbCategoryTotalsFrom s (dbRangeRows s userId r.1 r.2))

/-! ## Routes layer (src/routes.ts)

The `/api/analytics/monthly-summary` handler, period mode and month mode. The
route talks to `storage = new DatabaseStorage()`. `MOCK_USER_ID = 1`.
`reduce((sum, e) => sum + parseFloat(e.amount), 0)` is summation of the exact
rational amounts. `Math.round(x)` is `⌊x + 1/2⌋`. -/

def jsRound (q : ℚ) : Int := Int.floor (q + 1/2)

def sumAmounts (l : List ExpenseWithCategory) : ℚ :=
  (l.map (fun r => r.exp.amount)).sum

structure PeriodSummary where
  total : ℚ
  expenseCount : Nat
  changePercent : ℚ
  budget : ℚ
  period : String
  date : Int
deriving DecidableEq

structure MonthSummary where
  total : ℚ
  expenseCount : Nat
  changePercent : ℚ
  budget : ℚ
  month : Int
  year : Int
deriving DecidableEq

/-- The previous reference date for period mode (`prevDate` switch; no default
case, so an unrecognized unit leaves the date unchanged). -/
def prevDateOf (period : String) (refT : Int) : Int :=
  if period = "day" then setDate refT (getDate refT - 1)
  else if period = "week" then setDate refT (getDate refT - 7)
  else if period = "month" then setMonth refT (getMonth refT - 1)
  else if period = "year" then setFullYear refT (getFullYear refT - 1)
  else refT

def routePeriodSummary (s : MemState) (period : String) (refT : Int) :
    Except String PeriodSummary :=
  match dbGetExpensesByUserIdAndPeriod s 1 period refT with
  | .error e => .error e
  | .ok expenses =>
    match dbGetExpensesByUserIdAndPeriod s 1 period (prevDateOf period refT) with
    | .error e => .error e
    | .ok prevExpenses =>
      let total := sumAmounts expenses
      let prevTotal := sumAmounts prevExpenses
      let changePercent := if prevTotal > 0 then ((total - prevTotal) / prevTotal) * 100 else 0
      .ok { total := total
            expenseCount := expenses.length
            changePercent := (jsRound (changePercent * 100) : ℚ) / 100
            budget := 3000
            period := period
            date := refT }

def routeMonthSummary (s : MemState) (year month : Int) : MonthSummary :=
  let expenses := dbGetExpensesByUserIdAndMonth s 1 year month
  let total := sumAmounts expenses
  let prevMonth := if month = 1 then 12 else month - 1
  let prevYear := if month = 1 then year - 1 else year
  let prevExpenses := dbGetExpensesByUserIdAndMonth s 1 prevYear prevMonth
  let prevTotal := sumAmounts prevExpenses
  let changePercent := if prevTotal > 0 then ((total - prevTotal) / prevTotal) * 100 else 0
  { total := total
    expenseCount := expenses.length
    changePercent := (jsRound (changePercent * 100) : ℚ) / 100
    budget := 3000
    month := month
    year := year }

/-- Foreign-key invariant: every stored expense's `categoryId` resolves to an
existing category. -/
def FkInv (s : MemState) : Prop :=
  ∀ p ∈ s.expenses, ∃ q ∈ s.categories, (q.2).id = (p.2).categoryId

instance : DecidablePred FkInv := fun s => by unfold FkInv; infer_instance

/-! ## Basic lemmas about the map and pipeline helpers -/

theorem mapGet_mapSet_ne {α : Type} (m : List (Int × α)) (k k' : Int) (v : α)
    (h : k' ≠ k) : mapGet (mapSet m k v) k' = mapGet m k' := by
  induction m with
  | nil =>
      simp only [mapSet, mapGet, List.find?]
      rw [show ((k == k') = false) from by simpa using fun hk => h hk.symm]
  | cons p rest ih =>
      by_cases hp : p.1 = k
      · simp only [mapSet, if_pos hp, mapGet, List.find?]
        rw [show ((k == k') = false) from by simpa using fun hk => h hk.symm,
          show ((p.1 == k') = false) from by simp [hp]; omega]
      · simp only [mapSet, if_neg hp, mapGet, List.find?] at ih ⊢
        cases hpk : (p.1 == k') with
        | true => rfl
        | false => exact ih

theorem mapGet_mapDelete_ne {α : Type} (m : List (Int × α)) (k k' : Int)
    (h : k' ≠ k) : mapGet (mapDelete m k) k' = mapGet m k' := by
  induction m with
  | nil => rfl
  | cons p rest ih =>
      by_cases hp : p.1 = k
      · simp only [mapDelete, if_pos hp, mapGet, List.find?]
        rw [show ((p.1 == k') = false) from by simp [hp]; omega]
      · simp only [mapDelete, if_neg hp, mapGet, List.find?] at ih ⊢
        cases hpk : (p.1 == k') with
        | true => rfl
        | false => exact ih

theorem mapDelete_absent {α : Type} (m : List (Int × α)) (k : Int)
    (h : mapGet m k = none) : mapDelete m k = m := by
  induction m with
  | nil => rfl
  | cons p rest ih =>
      simp only [mapGet, List.find?] at h
      cases hpk : (p.1 == k) with
      | true => rw [hpk] at h; simp at h
      | false =>
          rw [hpk] at h
          simp only [mapDelete, if_neg (by simpa using hpk)]
          rw [ih h]

theorem mem_of_mapGet {α : Type} {m : List (Int × α)} {k : Int} {v : α}
    (h : mapGet m k = some v) : (k, v) ∈ m := by
  induction m with
  | nil => simp [mapGet] at h
  | cons p rest ih =>
      simp only [mapGet, List.find?] at h
      cases hpk : (p.1 == k) with
      | true =>
          rw [hpk] at h
          simp only [Option.map_some] at h
          have : p = (k, v) := by
            have h1 : p.1 = k := by simpa using hpk
            have h2 : p.2 = v := by simpa using h
            exact Prod.ext h1 h2
          simp [this]
      | false =>
          rw [hpk] at h
          exact List.mem_cons_of_mem p (ih h)

theorem mem_mapSet {α : Type} {m : List (Int × α)} {k : Int} {v : α} {p : Int × α}
    (h : p ∈ mapSet m k v) : p = (k, v) ∨ p ∈ m := by
  induction m with
  | nil => simpa [mapSet] using h
  | cons q rest ih =>
      by_cases hq : q.1 = k
      · simp only [mapSet, if_pos hq] at h
        rcases List.mem_cons.mp h with h | h
        · exact Or.inl h
        · exact Or.inr (List.mem_cons_of_mem q h)
      · simp only [mapSet, if_neg hq] at h
        rcases List.mem_cons.mp h with h | h
        · exact Or.inr (by simp [h])
        · rcases ih h with h | h
          · exact Or.inl h
          · exact Or.inr (List.mem_cons_of_mem q h)

theorem mem_mapDelete {α : Type} {m : List (Int × α)} {k : Int} {p : Int × α}
    (h : p ∈ mapDelete m k) : p ∈ m := by
  induction m with
  | nil => simpa [mapDelete] using h
  | cons q rest ih =>
      by_cases hq : q.1 = k
      · simp only [mapDelete, if_pos hq] at h
        exact List.mem_cons_of_mem q h
      · simp only [mapDelete, if_neg hq] at h
        rcases List.mem_cons.mp h with h | h
        · simp [h]
        · exact List.mem_cons_of_mem q (ih h)

/-! Sorting instances: the comparator relations are total preorders. -/

instance : IsTotal Expense (fun a b => b.date ≤ a.date) :=
  ⟨fun a b => le_total b.date a.date⟩

instance : IsTrans Expense (fun a b => b.date ≤ a.date) :=
  ⟨fun _ _ _ h1 h2 => le_trans h2 h1⟩

instance : IsTotal CategoryTotal (fun a b => b.total ≤ a.total) :=
  ⟨fun a b => le_total b.total a.total⟩

instance : IsTrans CategoryTotal (fun a b => b.total ≤ a.total) :=
  ⟨fun _ _ _ h1 h2 => le_trans h2 h1⟩

theorem sortByDateDesc_sorted (l : List Expense) :
    (sortByDateDesc l).Pairwise (fun a b => b.date ≤ a.date) := by
  unfold sortByDateDesc
  exact List.sorted_insertionSort (fun a b : Expense => b.date ≤ a.date) l

theorem sortByDateDesc_perm (l : List Expense) : List.Perm (sortByDateDesc l) l := by
  unfold sortByDateDesc
  exact List.perm_insertionSort (fun a b : Expense => b.date ≤ a.date) l

theorem sortByDateDesc_mem {l : List Expense} {e : Expense} :
    e ∈ sortByDateDesc l ↔ e ∈ l :=
  (sortByDateDesc_perm l).mem_iff

/-- When category rows are keyed by their `id` field, the SQL join's row lookup
(first row with `categories.id = k`) agrees with `Map.get(k)`. -/
theorem find_values_eq_mapGet (m : List (Int × Category))
    (hwf : ∀ q ∈ m, q.1 = (q.2).id) (k : Int) :
    (mapValues m).find? (fun c => c.id == k) = mapGet m k := by
  induction m with
  | nil => rfl
  | cons q rest ih =>
      have hq := hwf q (List.mem_cons_self q rest)
      simp only [mapValues, List.map_cons, List.find?, mapGet]
      rw [show ((q.2).id == k) = (q.1 == k) from by rw [← hq]]
      cases hqk : (q.1 == k) with
      | true => rfl
      | false =>
          have := ih (fun r hr => hwf r (List.mem_cons_of_mem q hr))
          simp only [mapValues, mapGet] at this
          exact this

/-- On a list whose every element resolves its category, the inner join is
exactly the `MemStorage` projection, provided category rows are keyed by their
`id` field. -/
theorem dbJoinRows_eq_map (s : MemState) (l : List Expense)
    (hwf : ∀ q ∈ s.categories, q.1 = (q.2).id)
    (hfk : ∀ e ∈ l, (mapGet s.categories e.categoryId).isSome) :
    dbJoinRows s l = l.map (withCategory s) := by
  induction l with
  | nil => rfl
  | cons e rest ih =>
      have he := hfk e (List.mem_cons_self e rest)
      obtain ⟨c, hc⟩ : ∃ c, mapGet s.categories e.categoryId = some c :=
        Option.isSome_iff_exists.mp he
      have hfind := find_values_eq_mapGet s.categories hwf e.categoryId
      have h1 : withCategory s e = ⟨e, some c⟩ := by
        unfold withCategory
        rw [hc]
      have h2 := ih (fun e' he' => hfk e' (List.mem_cons_of_mem e he'))
      simp only [dbJoinRows, List.filterMap_cons, hfind, hc, Option.map_some'] at h2 ⊢
      rw [List.map_cons, h1]
      exact congrArg (List.cons _) h2

/-! Accumulated totals: key structure and sum preservation. -/

theorem bumpTotal_keys (m : List (Int × ℚ)) (k : Int) (v : ℚ) :
    (bumpTotal m k v).map (fun p => p.1) =
      if k ∈ m.map (fun p => p.1) then m.map (fun p => p.1)
      else m.map (fun p => p.1) ++ [k] := by
  induction m with
  | nil => simp [bumpTotal]
  | cons p rest ih =>
      by_cases hp : p.1 = k
      · simp [bumpTotal, hp]
      · simp only [bumpTotal, if_neg hp, List.map_cons, ih]
        by_cases hk : k ∈ rest.map (fun p => p.1)
        · rw [if_pos hk, if_pos (by simp [hk])]
        · rw [if_neg hk, if_neg (by simp [hk]; omega)]
          simp

theorem bumpTotal_sum (m : List (Int × ℚ)) (k : Int) (v : ℚ) :
    ((bumpTotal m k v).map (fun p => p.2)).sum = (m.map (fun p => p.2)).sum + v := by
  induction m with
  | nil => simp [bumpTotal]
  | cons p rest ih =>
      by_cases hp : p.1 = k
      · simp only [bumpTotal, if_pos hp, List.map_cons, List.sum_cons]
        ring
      · simp only [bumpTotal, if_neg hp, List.map_cons, List.sum_cons, ih]
        ring

theorem accumTotals_aux_sum (l : List ExpenseWithCategory) (acc : List (Int × ℚ)) :
    ((l.foldl (fun a r => bumpTotal a r.exp.categoryId r.exp.amount) acc).map
        (fun p => p.2)).sum =
      (acc.map (fun p => p.2)).sum + (l.map (fun r => r.exp.amount)).sum := by
  induction l generalizing acc with
  | nil => simp
  | cons r rest ih =>
      simp only [List.foldl_cons, List.map_cons, List.sum_cons, ih, bumpTotal_sum]
      ring

theorem accumTotals_sum (l : List ExpenseWithCategory) :
    ((accumTotals l).map (fun p => p.2)).sum = (l.map (fun r => r.exp.amount)).sum := by
  unfold accumTotals
  rw [accumTotals_aux_sum]
  simp

theorem accumTotals_aux_keys (l : List ExpenseWithCategory) (acc : List (Int × ℚ)) :
    (((l.foldl (fun a r => bumpTotal a r.exp.categoryId r.exp.amount) acc).map
        (fun p => p.1)).Nodup ↔ (acc.map (fun p => p.1)).Nodup) ∧
      (∀ k, k ∈ (l.foldl (fun a r => bumpTotal a r.exp.categoryId r.exp.amount) acc).map
          (fun p => p.1) ↔
        k ∈ acc.map (fun p => p.1) ∨ k ∈ l.map (fun r => r.exp.categoryId)) := by
  induction l generalizing acc with
  | nil => simp
  | cons r rest ih =>
      simp only [List.foldl_cons]
      obtain ⟨ihn, ihm⟩ := ih (bumpTotal acc r.exp.categoryId r.exp.amount)
      constructor
      · rw [ihn, bumpTotal_keys]
        by_cases hk : r.exp.categoryId ∈ acc.map (fun p => p.1)
        · rw [if_pos hk]
        · rw [if_neg hk]
          constructor
          · intro h
            exact (List.nodup_append.mp h).1
          · intro h
            rw [List.nodup_append]
            refine ⟨h, List.nodup_singleton _, ?_⟩
            intro a ha hb
            simp only [List.mem_singleton] at hb
            subst hb
            exact hk ha
      · intro k
        rw [ihm, bumpTotal_keys]
        by_cases hk : r.exp.categoryId ∈ acc.map (fun p => p.1)
        · rw [if_pos hk]
          simp only [List.map_cons, List.mem_cons]
          constructor
          · rintro (h | h)
            · exact Or.inl h
            · exact Or.inr (Or.inr h)
          · rintro (h | h)
            · exact Or.inl h
            · rcases h with h | h
              · exact Or.inl (h ▸ hk)
              · exact Or.inr h
        · rw [if_neg hk]
          simp only [List.mem_append, List.map_cons, List.mem_cons]
          constructor
          · rintro ((h | h) | h)
            · exact Or.inl h
            · rcases h with h | h
              · exact Or.inr (Or.inl h)
              · exact absurd h (List.not_mem_nil k)
            · exact Or.inr (Or.inr h)
          · rintro (h | h)
            · exact Or.inl (Or.inl h)
            · rcases h with h | h
              · exact Or.inl (Or.inr (Or.inl h))
              · exact Or.inr h

theorem accumTotals_keys_nodup (l : List ExpenseWithCategory) :
    ((accumTotals l).map (fun p => p.1)).Nodup := by
  unfold accumTotals
  exact ((accumTotals_aux_keys l []).1).mpr (by simp)

theorem accumTotals_keys_mem (l : List ExpenseWithCategory) (k : Int) :
    k ∈ (accumTotals l).map (fun p => p.1) ↔ k ∈ l.map (fun r => r.exp.categoryId) := by
  unfold accumTotals
  rw [(accumTotals_aux_keys l []).2 k]
  simp

deriving instance DecidableEq for Except

/-! ## Window resolution lemmas -/

theorem setHoursEnd (t : Int) : setHours t 23 59 59 999 = jsDay t * 86400000 + 86399999 := by
  unfold setHours makeTime
  omega

theorem weekStartT_eq (refT : Int) :
    weekStartT refT = (jsDay refT - getDay refT) * 86400000 := by
  unfold weekStartT
  rw [jsDay_setHours0, jsDay_setDate]
  ring

theorem weekEndT_eq (refT : Int) : weekEndT refT = weekStartT refT + 7 * 86400000 - 1 := by
  unfold weekEndT
  rw [setHoursEnd, jsDay_setDate, weekStartT_eq]
  rw [show jsDay ((jsDay refT - getDay refT) * 86400000) = jsDay refT - getDay refT from by
    unfold jsDay; omega]
  ring

/-- C6: for every reference date, the week window starts on the most recent
Sunday at 00:00:00.000 at or before the reference date (on the reference day
itself when that is a Sunday) and ends exactly 6 days later at 23:59:59.999 — a
span of exactly 7 calendar days. -/
theorem c6_week_window (refT : Int) :
    getDay (weekStartT refT) = 0 ∧
    timeWithinDay (weekStartT refT) = 0 ∧
    weekStartT refT ≤ refT ∧
    refT - weekStartT refT < 7 * 86400000 ∧
    weekEndT refT = weekStartT refT + 7 * 86400000 - 1 ∧
    getHours (weekEndT refT) = 23 ∧ getMinutes (weekEndT refT) = 59 ∧
    getSeconds (weekEndT refT) = 59 ∧ getMilliseconds (weekEndT refT) = 999 ∧
    (getDay refT = 0 → weekStartT refT = jsDay refT * 86400000) := by
  have h1 := weekStartT_eq refT
  have h2 := weekEndT_eq refT
  unfold getDay timeWithinDay getHours getMinutes getSeconds getMilliseconds jsDay at *
  omega

theorem daysInMonth_pos (y m : Int) : 1 ≤ daysInMonth y m := by
  unfold daysInMonth
  split_ifs <;> omega

theorem dbPeriodRange_month (refT : Int) :
    dbPeriodRange "month" refT =
      .ok (mkDate (getFullYear refT) (getMonth refT) 1 0 0 0 0,
           mkDate (getFullYear refT) (getMonth refT + 1) 0 23 59 59 999) := by
  unfold dbPeriodRange
  rw [if_neg (by decide), if_neg (by decide), if_pos rfl]

theorem mkDate_month_start (Y M : Int) (hY : ¬ (0 ≤ Y ∧ Y ≤ 99)) (hM0 : 0 ≤ M)
    (hM1 : M ≤ 11) : mkDate Y M 1 0 0 0 0 = daysFromCivil Y (M + 1) 1 * 86400000 := by
  simp only [mkDate]
  rw [if_neg hY, makeDay_std Y M 1 hM0 hM1]
  unfold makeTime
  ring

theorem mkDate_month_end (Y M : Int) (hY : ¬ (0 ≤ Y ∧ Y ≤ 99)) (hM0 : 0 ≤ M)
    (hM1 : M ≤ 11) :
    mkDate Y (M + 1) 0 23 59 59 999 =
      (daysFromCivil Y (M + 1) 1 + daysInMonth Y (M + 1)) * 86400000 - 1 := by
  have hadj := month_adjacent Y (M + 1) (by omega) (by omega)
  simp only [mkDate]
  rw [if_neg hY]
  unfold makeTime
  by_cases hM11 : M = 11
  · subst hM11
    rw [if_pos (by norm_num : (11:Int) + 1 = 12)] at hadj
    unfold makeDay
    norm_num at hadj ⊢
    omega
  · rw [makeDay_std Y (M + 1) 0 (by omega) (by omega)]
    rw [if_neg (by omega : ¬ (M + 1 = 12))] at hadj
    omega

theorem jsDay_of_mul (k : Int) : jsDay (k * 86400000) = k := by
  unfold jsDay
  omega

/-- C5 (amended): for every reference date whose civil year is outside 0..99
(the JS `Date` constructor's legacy two-digit-year range), the month window
resolves to [first day of the reference's month at 00:00:00.000, last day of
that month at 23:59:59.999], for all month lengths including leap-year
February; likewise for the explicit (year, month) mode. -/
theorem c5_month_window (refT year month : Int)
    (hY : ¬ (0 ≤ getFullYear refT ∧ getFullYear refT ≤ 99))
    (hy2 : ¬ (0 ≤ year ∧ year ≤ 99)) (hm1 : 1 ≤ month) (hm2 : month ≤ 12) :
    (dbPeriodRange "month" refT =
      .ok (daysFromCivil (getFullYear refT) (getMonth refT + 1) 1 * 86400000,
           (daysFromCivil (getFullYear refT) (getMonth refT + 1) 1 +
             daysInMonth (getFullYear refT) (getMonth refT + 1)) * 86400000 - 1)) ∧
    (getFullYear (daysFromCivil (getFullYear refT) (getMonth refT + 1) 1 * 86400000) =
        getFullYear refT ∧
     getMonth (daysFromCivil (getFullYear refT) (getMonth refT + 1) 1 * 86400000) =
        getMonth refT ∧
     getDate (daysFromCivil (getFullYear refT) (getMonth refT + 1) 1 * 86400000) = 1 ∧
     timeWithinDay (daysFromCivil (getFullYear refT) (getMonth refT + 1) 1 * 86400000) = 0) ∧
    (getFullYear ((daysFromCivil (getFullYear refT) (getMonth refT + 1) 1 +
          daysInMonth (getFullYear refT) (getMonth refT + 1)) * 86400000 - 1) =
        getFullYear refT ∧
     getMonth ((daysFromCivil (getFullYear refT) (getMonth refT + 1) 1 +
          daysInMonth (getFullYear refT) (getMonth refT + 1)) * 86400000 - 1) =
        getMonth refT ∧
     getDate ((daysFromCivil (getFullYear refT) (getMonth refT + 1) 1 +
          daysInMonth (getFullYear refT) (getMonth refT + 1)) * 86400000 - 1) =
        daysInMonth (getFullYear refT) (getMonth refT + 1) ∧
     getHours ((daysFromCivil (getFullYear refT) (getMonth refT + 1) 1 +
          daysInMonth (getFullYear refT) (getMonth refT + 1)) * 86400000 - 1) = 23 ∧
     getMinutes ((daysFromCivil (getFullYear refT) (getMonth refT + 1) 1 +
          daysInMonth (getFullYear refT) (getMonth refT + 1)) * 86400000 - 1) = 59 ∧
     getSeconds ((daysFromCivil (getFullYear refT) (getMonth refT + 1) 1 +
          daysInMonth (getFullYear refT) (getMonth refT + 1)) * 86400000 - 1) = 59 ∧
     getMilliseconds ((daysFromCivil (getFullYear refT) (getMonth refT + 1) 1 +
          daysInMonth (getFullYear refT) (getMonth refT + 1)) * 86400000 - 1) = 999) ∧
    (mkDate year (month - 1) 1 0 0 0 0 = daysFromCivil year month 1 * 86400000 ∧
     mkDate year month 0 23 59 59 999 =
       (daysFromCivil year month 1 + daysInMonth year month) * 86400000 - 1) := by
  obtain ⟨Y, hYeq⟩ : ∃ x, getFullYear refT = x := ⟨_, rfl⟩
  obtain ⟨M, hMeq⟩ : ∃ x, getMonth refT = x := ⟨_, rfl⟩
  obtain ⟨hM0, hM1⟩ := getMonth_bounds refT
  rw [hYeq] at hY
  rw [hMeq] at hM0 hM1
  rw [hYeq, hMeq]
  have hdimpos := daysInMonth_pos Y (M + 1)
  have hstart := mkDate_month_start Y M hY hM0 hM1
  have hend := mkDate_month_end Y M hY hM0 hM1
  have hcivil_st : civilFromDays (daysFromCivil Y (M + 1) 1) = ⟨Y, M + 1, 1⟩ :=
    civilFromDays_daysFromCivil (by omega) (by omega) (by omega) hdimpos
  have hcivil_en : civilFromDays (daysFromCivil Y (M + 1) (daysInMonth Y (M + 1))) =
      ⟨Y, M + 1, daysInMonth Y (M + 1)⟩ :=
    civilFromDays_daysFromCivil (by omega) (by omega) (by omega) (le_refl _)
  have hlin := daysFromCivil_linear Y (M + 1) (daysInMonth Y (M + 1))
  have hjend : jsDay ((daysFromCivil Y (M + 1) 1 + daysInMonth Y (M + 1)) * 86400000 - 1) =
      daysFromCivil Y (M + 1) (daysInMonth Y (M + 1)) := by
    unfold jsDay
    omega
  refine ⟨?_, ⟨?_, ?_, ?_, ?_⟩, ⟨?_, ?_, ?_, ?_, ?_, ?_, ?_⟩, ?_, ?_⟩
  · rw [dbPeriodRange_month, hYeq, hMeq, hstart, hend]
  · unfold getFullYear
    rw [jsDay_of_mul, hcivil_st]
  · unfold getMonth
    rw [jsDay_of_mul, hcivil_st]
    show M + 1 - 1 = M
    omega
  · unfold getDate
    rw [jsDay_of_mul, hcivil_st]
  · unfold timeWithinDay
    omega
  · unfold getFullYear
    rw [hjend, hcivil_en]
  · unfold getMonth
    rw [hjend, hcivil_en]
    show M + 1 - 1 = M
    omega
  · unfold getDate
    rw [hjend, hcivil_en]
  · unfold getHours
    omega
  · unfold getMinutes
    omega
  · unfold getSeconds
    omega
  · unfold getMilliseconds
    omega
  · have h := mkDate_month_start year (month - 1) hy2 (by omega) (by omega)
    rw [show month - 1 + 1 = month from by omega] at h
    exact h
  · have h := mkDate_month_end year (month - 1) hy2 (by omega) (by omega)
    rw [show month - 1 + 1 = month from by omega] at h
    exact h

/-- C5 counterexample: for a reference date in civil year 50, the resolved
month window starts in year 1950 (the constructor's legacy two-digit-year
mapping), not in the reference's month. -/
theorem c5_counterexample :
    getFullYear (daysFromCivil 50 2 15 * 86400000) = 50 ∧
    (dbPeriodRange "month" (daysFromCivil 50 2 15 * 86400000)).map
        (fun r => getFullYear r.1) = .ok 1950 := by
  constructor
  · decide
  · decide

theorem c5_month_window_witness :
    ¬ (0 ≤ getFullYear (mkDate 2024 1 15 12 0 0 0) ∧
        getFullYear (mkDate 2024 1 15 12 0 0 0) ≤ 99) ∧
    dbPeriodRange "month" (mkDate 2024 1 15 12 0 0 0) =
      .ok (daysFromCivil 2024 2 1 * 86400000,
           (daysFromCivil 2024 2 1 + 29) * 86400000 - 1) := by
  refine ⟨by decide, ?_⟩
  have h := (c5_month_window (mkDate 2024 1 15 12 0 0 0) 2024 2 (by decide) (by decide)
    (by decide) (by decide)).1
  exact h.trans (by decide)

/-! ## Map membership helpers for the store invariants -/

theorem mapSet_self_mem {α : Type} (m : List (Int × α)) (k : Int) (v : α) :
    (k, v) ∈ mapSet m k v := by
  induction m with
  | nil => simp [mapSet]
  | cons p rest ih =>
      by_cases hp : p.1 = k
      · simp [mapSet, hp]
      · simp only [mapSet, if_neg hp]
        exact List.mem_cons_of_mem p ih

theorem mem_mapSet_of_mem {α : Type} {m : List (Int × α)} {k : Int} {v : α} {p : Int × α}
    (h : p ∈ m) : p ∈ mapSet m k v ∨ p.1 = k := by
  induction m with
  | nil => simp at h
  | cons q rest ih =>
      by_cases hq : q.1 = k
      · simp only [mapSet, if_pos hq]
        rcases List.mem_cons.mp h with h | h
        · subst h
          exact Or.inr hq
        · exact Or.inl (List.mem_cons_of_mem _ h)
      · simp only [mapSet, if_neg hq]
        rcases List.mem_cons.mp h with h | h
        · exact Or.inl (by simp [h])
        · rcases ih h with h | h
          · exact Or.inl (List.mem_cons_of_mem _ h)
          · exact Or.inr h

/-- C10: `updateExpense` touches only the expense with the given id — all other
expenses, all users, all categories and all id counters are unchanged — and on
a missing id it returns `undefined` (resp. `deleteExpense` returns `false`)
leaving the whole store unchanged. -/
theorem c10_update_delete_frame (s : MemState) (id : Int) (u : UpdateExpense) :
    ((memUpdateExpense s id u).1.users = s.users ∧
     (memUpdateExpense s id u).1.categories = s.categories ∧
     (memUpdateExpense s id u).1.currentUserId = s.currentUserId ∧
     (memUpdateExpense s id u).1.currentCategoryId = s.currentCategoryId ∧
     (memUpdateExpense s id u).1.currentExpenseId = s.currentExpenseId) ∧
    (∀ id', id' ≠ id →
      mapGet (memUpdateExpense s id u).1.expenses id' = mapGet s.expenses id') ∧
    (mapGet s.expenses id = none → memUpdateExpense s id u = (s, none)) ∧
    ((memDeleteExpense s id).1.users = s.users ∧
     (memDeleteExpense s id).1.categories = s.categories ∧
     (memDeleteExpense s id).1.currentUserId = s.currentUserId ∧
     (memDeleteExpense s id).1.currentCategoryId = s.currentCategoryId ∧
     (memDeleteExpense s id).1.currentExpenseId = s.currentExpenseId) ∧
    (∀ id', id' ≠ id →
      mapGet (memDeleteExpense s id).1.expenses id' = mapGet s.expenses id') ∧
    (memDeleteExpense s id).2 = (mapGet s.expenses id).isSome ∧
    (mapGet s.expenses id = none → memDeleteExpense s id = (s, false)) := by
  refine ⟨?_, ?_, ?_, ⟨rfl, rfl, rfl, rfl, rfl⟩, ?_, rfl, ?_⟩
  · unfold memUpdateExpense
    cases hx : mapGet s.expenses id with
    | none => exact ⟨rfl, rfl, rfl, rfl, rfl⟩
    | some e => exact ⟨rfl, rfl, rfl, rfl, rfl⟩
  · intro id' hne
    unfold memUpdateExpense
    cases hx : mapGet s.expenses id with
    | none => rfl
    | some e => exact mapGet_mapSet_ne s.expenses id id' (applyUpdate e u) hne
  · intro hx
    unfold memUpdateExpense
    rw [hx]
  · intro id' hne
    unfold memDeleteExpense
    exact mapGet_mapDelete_ne s.expenses id id' hne
  · intro hx
    unfold memDeleteExpense
    rw [hx, mapDelete_absent s.expenses id hx]
    rfl

theorem c10_update_delete_frame_witness :
    memUpdateExpense (initialState 0) 99
        ⟨none, none, none, none, none, none, none, none, none⟩ = (initialState 0, none) ∧
    memDeleteExpense (initialState 0) 99 = (initialState 0, false) :=
  ⟨(c10_update_delete_frame (initialState 0) 99
      ⟨none, none, none, none, none, none, none, none, none⟩).2.2.1 (by decide),
   (c10_update_delete_frame (initialState 0) 99
      ⟨none, none, none, none, none, none, none, none, none⟩).2.2.2.2.2.2 (by decide)⟩

/-- C3 (amended): the foreign-key invariant holds in the initial store and is
preserved by `deleteExpense` and by `createCategory` (for stores whose category
map is keyed by category id); `createExpense` and `updateExpense` preserve it
only when the supplied `categoryId` (if any) resolves to an existing category —
the code itself performs no such check. -/
theorem c3_fk_invariant :
    (∀ now : Int, FkInv (initialState now)) ∧
    (∀ s id, FkInv s → FkInv (memDeleteExpense s id).1) ∧
    (∀ s ins, FkInv s → (∀ q ∈ s.categories, q.1 = (q.2).id) →
      FkInv (memCreateCategory s ins).1) ∧
    (∀ s ins now, FkInv s → (∃ q ∈ s.categories, (q.2).id = ins.categoryId) →
      FkInv (memCreateExpense s ins now).1) ∧
    (∀ s id u, FkInv s →
      (∀ cid, u.categoryId = some cid → ∃ q ∈ s.categories, (q.2).id = cid) →
      FkInv (memUpdateExpense s id u).1) := by
  refine ⟨?_, ?_, ?_, ?_, ?_⟩
  · intro now p hp
    simp only [initialState, List.mem_cons, List.not_mem_nil, or_false] at hp
    rcases hp with rfl | rfl | rfl | rfl | rfl | rfl
    · exact ⟨(1, ⟨1, "Food", "fas fa-utensils", "blue"⟩), by simp [initialState], rfl⟩
    · exact ⟨(1, ⟨1, "Food", "fas fa-utensils", "blue"⟩), by simp [initialState], rfl⟩
    · exact ⟨(2, ⟨2, "Transport", "fas fa-car", "green"⟩), by simp [initialState], rfl⟩
    · exact ⟨(3, ⟨3, "Shopping", "fas fa-shopping-bag", "purple"⟩), by simp [initialState], rfl⟩
    · exact ⟨(8, ⟨8, "Utilities", "fas fa-bolt", "yellow"⟩), by simp [initialState], rfl⟩
    · exact ⟨(4, ⟨4, "Business", "fas fa-briefcase", "amber"⟩), by simp [initialState], rfl⟩
  · intro s id hfk p hp
    exact hfk p (mem_mapDelete hp)
  · intro s ins hfk hwf p hp
    unfold memCreateCategory at hp ⊢
    obtain ⟨q, hq, hqid⟩ := hfk p hp
    rcases mem_mapSet_of_mem (k := s.currentCategoryId)
        (v := ⟨s.currentCategoryId, ins.name, ins.icon, ins.color⟩) hq with h | h
    · exact ⟨q, h, hqid⟩
    · refine ⟨(s.currentCategoryId, ⟨s.currentCategoryId, ins.name, ins.icon, ins.color⟩),
        mapSet_self_mem _ _ _, ?_⟩
      have := hwf q hq
      simp only []
      omega
  · intro s ins now hfk hex p hp
    unfold memCreateExpense at hp
    rcases mem_mapSet (m := s.expenses) hp with h | h
    · subst h
      obtain ⟨q, hq, hqid⟩ := hex
      exact ⟨q, hq, hqid⟩
    · exact hfk p h
  · intro s id u hfk hex p hp
    unfold memUpdateExpense at hp ⊢
    cases hx : mapGet s.expenses id with
    | none =>
        rw [hx] at hp
        exact hfk p hp
    | some e =>
        rw [hx] at hp
        show ∃ q ∈ s.categories, (q.2).id = (p.2).categoryId
        rcases mem_mapSet (m := s.expenses) hp with h | h
        · subst h
          show ∃ q ∈ s.categories, (q.2).id = u.categoryId.getD e.categoryId
          cases hcid : u.categoryId with
          | none =>
              simp only [Option.getD_none]
              exact hfk (id, e) (mem_of_mapGet hx)
          | some cid =>
              simp only [Option.getD_some]
              exact hex cid hcid
        · exact hfk p h

theorem c3_fk_counterexample :
    FkInv (initialState 0) ∧
    ¬ FkInv (memCreateExpense (initialState 0)
        ⟨1, 10, 999, none, none, 0, none, none, none⟩ 0).1 := by
  constructor
  · decide
  · decide

theorem c3_fk_invariant_witness :
    FkInv (memCreateExpense (initialState 0)
        ⟨1, 10, 1, none, none, 0, none, none, none⟩ 0).1 :=
  c3_fk_invariant.2.2.2.1 (initialState 0) ⟨1, 10, 1, none, none, 0, none, none, none⟩ 0
    (by decide) ⟨(1, ⟨1, "Food", "fas fa-utensils", "blue"⟩), by decide, rfl⟩

/-! ## C2: unrecognized period units -/

theorem dbPeriodRange_invalid (p : String) (refT : Int)
    (h1 : p ≠ "day") (h2 : p ≠ "week") (h3 : p ≠ "month") (h4 : p ≠ "year") :
    dbPeriodRange p refT = .error ("Invalid period: " ++ p) := by
  unfold dbPeriodRange
  rw [if_neg h1, if_neg h2, if_neg h3, if_neg h4]

theorem memPeriodFilter_invalid (p : String) (refT : Int) (e : Expense)
    (h1 : p ≠ "day") (h2 : p ≠ "week") (h3 : p ≠ "month") (h4 : p ≠ "year") :
    memPeriodFilter p refT e = false := by
  unfold memPeriodFilter
  rw [if_neg h1, if_neg h2, if_neg h3, if_neg h4]

/-- C2 (amended): on a period unit outside {day, week, month, year},
`DatabaseStorage` rejects with an `Invalid period` error before touching the
store, but `MemStorage` does not reject — its `default: return false` filter
branch silently yields an empty result, for both the expense query and the
category totals. -/
theorem c2_invalid_period (s : MemState) (u : Int) (p : String) (refT : Int)
    (h1 : p ≠ "day") (h2 : p ≠ "week") (h3 : p ≠ "month") (h4 : p ≠ "year") :
    dbGetExpensesByUserIdAndPeriod s u p refT = .error ("Invalid period: " ++ p) ∧
    dbGetCategoryTotalsByPeriod s u p refT = .error ("Invalid period: " ++ p) ∧
    memGetExpensesByUserIdAndPeriod s u p refT = [] ∧
    memGetCategoryTotalsByPeriod s u p refT = [] := by
  have hr := dbPeriodRange_invalid p refT h1 h2 h3 h4
  have hfilter : ((mapValues s.expenses).filter
      (fun e => e.userId == u && memPeriodFilter p refT e)) = [] := by
    have : ∀ e ∈ mapValues s.expenses,
        (e.userId == u && memPeriodFilter p refT e) = false := by
      intro e _
      rw [memPeriodFilter_invalid p refT e h1 h2 h3 h4, Bool.and_false]
    calc ((mapValues s.expenses).filter (fun e => e.userId == u && memPeriodFilter p refT e))
        = (mapValues s.expenses).filter (fun _ => false) :=
          List.filter_congr (by intro e he; rw [this e he])
      _ = [] := List.filter_false _
  have hmem : memGetExpensesByUserIdAndPeriod s u p refT = [] := by
    unfold memGetExpensesByUserIdAndPeriod
    rw [hfilter]
    rfl
  refine ⟨?_, ?_, hmem, ?_⟩
  · unfold dbGetExpensesByUserIdAndPeriod
    rw [hr]
    rfl
  · unfold dbGetCategoryTotalsByPeriod
    rw [hr]
    rfl
  · unfold memGetCategoryTotalsByPeriod
    rw [hmem]
    rfl

/-- C2 counterexample: `MemStorage` returns a value (the empty list) for an
unrecognized unit instead of rejecting, even on a store whose `day` query for
the same arguments is nonempty. -/
theorem c2_counterexample :
    memGetExpensesByUserIdAndPeriod (initialState 0) 1 "fortnight" 0 = [] ∧
    memGetExpensesByUserIdAndPeriod (initialState 0) 1 "day" 0 ≠ [] := by
  constructor
  · decide
  · decide

theorem c2_invalid_period_witness :
    dbGetExpensesByUserIdAndPeriod (initialState 0) 1 "fortnight" 0 =
      .error ("Invalid period: " ++ "fortnight") ∧
    dbGetCategoryTotalsByPeriod (initialState 0) 1 "fortnight" 0 =
      .error ("Invalid period: " ++ "fortnight") ∧
    memGetExpensesByUserIdAndPeriod (initialState 0) 1 "fortnight" 0 = [] ∧
    memGetCategoryTotalsByPeriod (initialState 0) 1 "fortnight" 0 = [] :=
  c2_invalid_period (initialState 0) 1 "fortnight" 0 (by decide) (by decide) (by decide)
    (by decide)

/-! ## C8: window queries are date-descending and contain exactly the window -/

theorem pipeline_sorted (s : MemState) (l : List Expense) :
    ((sortByDateDesc l).map (withCategory s)).Pairwise
      (fun a b => (b.exp).date ≤ (a.exp).date) :=
  (sortByDateDesc_sorted l).map (withCategory s) (fun a b hab => hab)

theorem pipeline_mem (s : MemState) (l : List Expense) (e : Expense) :
    (∃ r ∈ (sortByDateDesc l).map (withCategory s), r.exp = e) ↔ e ∈ l := by
  constructor
  · rintro ⟨r, hr, hre⟩
    rw [List.mem_map] at hr
    obtain ⟨a, ha, hfa⟩ := hr
    rw [← hre, ← hfa]
    exact sortByDateDesc_mem.mp ha
  · intro he
    exact ⟨withCategory s e,
      List.mem_map_of_mem (withCategory s) (sortByDateDesc_mem.mpr he), rfl⟩

/-- C8: every window expense query returns a sequence sorted by date in
non-increasing order containing exactly that user's expenses whose date lies
in the window (for `getExpensesByUserId` the window is unbounded; the other
windows are the code's own month / period predicates). -/
theorem c8_descending_window (s : MemState) (u y m : Int) (p : String) (refT : Int)
    (e : Expense) :
    (memGetExpensesByUserId s u).Pairwise (fun a b => (b.exp).date ≤ (a.exp).date) ∧
    (memGetExpensesByUserIdAndMonth s u y m).Pairwise
      (fun a b => (b.exp).date ≤ (a.exp).date) ∧
    (memGetExpensesByUserIdAndPeriod s u p refT).Pairwise
      (fun a b => (b.exp).date ≤ (a.exp).date) ∧
    ((∃ r ∈ memGetExpensesByUserId s u, r.exp = e) ↔
      e ∈ mapValues s.expenses ∧ e.userId = u) ∧
    ((∃ r ∈ memGetExpensesByUserIdAndMonth s u y m, r.exp = e) ↔
      e ∈ mapValues s.expenses ∧ e.userId = u ∧ getFullYear e.date = y ∧
        getMonth e.date = m - 1) ∧
    ((∃ r ∈ memGetExpensesByUserIdAndPeriod s u p refT, r.exp = e) ↔
      e ∈ mapValues s.expenses ∧ e.userId = u ∧ memPeriodFilter p refT e = true) := by
  refine ⟨pipeline_sorted s _, pipeline_sorted s _, pipeline_sorted s _, ?_, ?_, ?_⟩
  · unfold memGetExpensesByUserId
    rw [pipeline_mem, List.mem_filter]
    simp only [beq_iff_eq]
  · unfold memGetExpensesByUserIdAndMonth
    rw [pipeline_mem, List.mem_filter]
    simp only [Bool.and_eq_true, beq_iff_eq, and_assoc]
  · unfold memGetExpensesByUserIdAndPeriod
    rw [pipeline_mem, List.mem_filter]
    simp only [Bool.and_eq_true, beq_iff_eq, and_assoc]

/-! ## C9 / C1: structure and sum of the category totals -/

theorem totalsFrom_sorted (s : MemState) (l : List ExpenseWithCategory) :
    (memCategoryTotalsFrom s l).Pairwise (fun a b => b.total ≤ a.total) := by
  unfold memCategoryTotalsFrom
  exact List.sorted_insertionSort (fun a b : CategoryTotal => b.total ≤ a.total) _

theorem totalsFrom_keys_perm (s : MemState) (l : List ExpenseWithCategory) :
    List.Perm ((memCategoryTotalsFrom s l).map (fun c => c.categoryId))
      ((accumTotals l).map (fun q => q.1)) := by
  unfold memCategoryTotalsFrom
  have hperm :=
    (List.perm_insertionSort (fun a b : CategoryTotal => b.total ≤ a.total)
      ((accumTotals l).map (fun q =>
        let c := mapGet s.categories q.1
        { categoryId := q.1
          categoryName := c.map (fun x => x.name)
          total := q.2
          color := c.map (fun x => x.color)
          icon := c.map (fun x => x.icon) }))).map (fun c => c.categoryId)
  rw [List.map_map] at hperm
  exact hperm

theorem totalsFrom_keys_nodup (s : MemState) (l : List ExpenseWithCategory) :
    ((memCategoryTotalsFrom s l).map (fun c => c.categoryId)).Nodup :=
  ((totalsFrom_keys_perm s l).nodup_iff).mpr (accumTotals_keys_nodup l)

theorem totalsFrom_keys_mem (s : MemState) (l : List ExpenseWithCategory) (k : Int) :
    k ∈ (memCategoryTotalsFrom s l).map (fun c => c.categoryId) ↔
      k ∈ l.map (fun r => (r.exp).categoryId) := by
  rw [(totalsFrom_keys_perm s l).mem_iff]
  exact accumTotals_keys_mem l k

theorem totalsFrom_sum (s : MemState) (l : List ExpenseWithCategory) :
    ((memCategoryTotalsFrom s l).map (fun c => c.total)).sum = sumAmounts l := by
  unfold memCategoryTotalsFrom sumAmounts
  have hperm :=
    ((List.perm_insertionSort (fun a b : CategoryTotal => b.total ≤ a.total)
      ((accumTotals l).map (fun q =>
        let c := mapGet s.categories q.1
        { categoryId := q.1
          categoryName := c.map (fun x => x.name)
          total := q.2
          color := c.map (fun x => x.color)
          icon := c.map (fun x => x.icon) }))).map (fun c => c.total)).sum_eq
  rw [hperm, List.map_map]
  exact accumTotals_sum l

/-- C9: each total list has exactly one entry per category with at least one
matching expense in the window (and none for categories without), sorted by
total in descending order. -/
theorem c9_totals_structure (s : MemState) (u y m : Int) (p : String) (refT : Int) :
    (memGetCategoryTotals s u y m).Pairwise (fun a b => b.total ≤ a.total) ∧
    ((memGetCategoryTotals s u y m).map (fun c => c.categoryId)).Nodup ∧
    (∀ k, k ∈ (memGetCategoryTotals s u y m).map (fun c => c.categoryId) ↔
      k ∈ (memGetExpensesByUserIdAndMonth s u y m).map (fun r => (r.exp).categoryId)) ∧
    (memGetCategoryTotalsByPeriod s u p refT).Pairwise (fun a b => b.total ≤ a.total) ∧
    ((memGetCategoryTotalsByPeriod s u p refT).map (fun c => c.categoryId)).Nodup ∧
    (∀ k, k ∈ (memGetCategoryTotalsByPeriod s u p refT).map (fun c => c.categoryId) ↔
      k ∈ (memGetExpensesByUserIdAndPeriod s u p refT).map (fun r => (r.exp).categoryId)) :=
  ⟨totalsFrom_sorted s _, totalsFrom_keys_nodup s _, totalsFrom_keys_mem s _,
   totalsFrom_sorted s _, totalsFrom_keys_nodup s _, totalsFrom_keys_mem s _⟩

/-- C1: with decimal-exact arithmetic on the stored amounts, the sum of all
returned category totals equals the sum of the amounts of all expenses of the
same window query, in both backends. -/
theorem c1_totals_sum (s : MemState) (u y m : Int) (p : String) (refT : Int) :
    ((memGetCategoryTotals s u y m).map (fun c => c.total)).sum =
      sumAmounts (memGetExpensesByUserIdAndMonth s u y m) ∧
    ((memGetCategoryTotalsByPeriod s u p refT).map (fun c => c.total)).sum =
      sumAmounts (memGetExpensesByUserIdAndPeriod s u p refT) ∧
    ((dbGetCategoryTotals s u y m).map (fun c => c.total)).sum =
      sumAmounts (dbGetExpensesByUserIdAndMonth s u y m) ∧
    (dbGetCategoryTotalsByPeriod s u p refT).map
        (fun ts => (ts.map (fun c => c.total)).sum) =
      (dbGetExpensesByUserIdAndPeriod s u p refT).map sumAmounts := by
  refine ⟨totalsFrom_sum s _, totalsFrom_sum s _, ?_, ?_⟩
  · have h : dbGetCategoryTotals s u y m =
        memCategoryTotalsFrom s (dbGetExpensesByUserIdAndMonth s u y m) := rfl
    rw [h]
    exact totalsFrom_sum s _
  · unfold dbGetCategoryTotalsByPeriod dbGetExpensesByUserIdAndPeriod
    cases hr : dbPeriodRange p refT with
    | error err => rfl
    | ok r =>
        simp only [Except.map]
        have h : dbCategoryTotalsFrom s (dbRangeRows s u r.1 r.2) =
            memCategoryTotalsFrom s (dbRangeRows s u r.1 r.2) := rfl
        rw [h, totalsFrom_sum s _]

/-! ## C7: period-over-period change percent -/

theorem jsRound_zero : jsRound 0 = 0 := by
  unfold jsRound
  norm_num

/-- C7: in both summary modes, `changePercent` is
`((currentTotal - previousTotal) / previousTotal) * 100` rounded half-up to two
decimal places when the previous window total is positive, and exactly `0` when
the previous total is `0` (never a division by zero). -/
theorem c7_change_percent (s : MemState) (p : String) (refT year month : Int) :
    (∀ (out : PeriodSummary) (l1 l2 : List ExpenseWithCategory),
      dbGetExpensesByUserIdAndPeriod s 1 p refT = .ok l1 →
      dbGetExpensesByUserIdAndPeriod s 1 p (prevDateOf p refT) = .ok l2 →
      routePeriodSummary s p refT = .ok out →
      (sumAmounts l2 > 0 →
        out.changePercent =
          (jsRound ((((sumAmounts l1 - sumAmounts l2) / sumAmounts l2) * 100) * 100) : ℚ)
            / 100) ∧
      (sumAmounts l2 = 0 → out.changePercent = 0)) ∧
    ((sumAmounts (dbGetExpensesByUserIdAndMonth s 1
        (if month = 1 then year - 1 else year) (if month = 1 then 12 else month - 1)) > 0 →
      (routeMonthSummary s year month).changePercent =
        (jsRound ((((sumAmounts (dbGetExpensesByUserIdAndMonth s 1 year month) -
            sumAmounts (dbGetExpensesByUserIdAndMonth s 1
              (if month = 1 then year - 1 else year)
              (if month = 1 then 12 else month - 1))) /
          sumAmounts (dbGetExpensesByUserIdAndMonth s 1
            (if month = 1 then year - 1 else year)
            (if month = 1 then 12 else month - 1))) * 100) * 100) : ℚ) / 100) ∧
    (sumAmounts (dbGetExpensesByUserIdAndMonth s 1
        (if month = 1 then year - 1 else year) (if month = 1 then 12 else month - 1)) = 0 →
      (routeMonthSummary s year month).changePercent = 0)) := by
  constructor
  · intro out l1 l2 h1 h2 hout
    unfold routePeriodSummary at hout
    rw [h1, h2] at hout
    simp only [Except.ok.injEq] at hout
    constructor
    · intro hpos
      rw [← hout]
      simp only []
      rw [if_pos hpos]
    · intro hzero
      rw [← hout]
      simp only []
      rw [if_neg (by rw [hzero]; exact lt_irrefl 0), show ((0:ℚ) * 100) = 0 from by ring,
        jsRound_zero]
      norm_num
  · constructor
    · intro hpos
      simp only [routeMonthSummary]
      rw [if_pos hpos]
    · intro hzero
      simp only [routeMonthSummary]
      rw [if_neg (by rw [hzero]; exact lt_irrefl 0), show ((0:ℚ) * 100) = 0 from by ring,
        jsRound_zero]
      norm_num

/-! ## C4: the two backends agree on every valid period window -/

theorem mapGet_isSome_of_fk (s : MemState) (hfk : FkInv s)
    (hwf : ∀ q ∈ s.categories, q.1 = (q.2).id) (e : Expense)
    (he : e ∈ mapValues s.expenses) : (mapGet s.categories e.categoryId).isSome := by
  unfold mapValues at he
  rw [List.mem_map] at he
  obtain ⟨pr, hpr, hpe⟩ := he
  obtain ⟨q, hq, hqid⟩ := hfk pr hpr
  have hkey : q.1 = e.categoryId := by rw [hwf q hq, hqid, hpe]
  unfold mapGet
  have hfind : (s.categories.find? (fun x => x.1 == e.categoryId)).isSome :=
    List.find?_isSome.mpr ⟨q, hq, by simp [hkey]⟩
  cases hx : s.categories.find? (fun x => x.1 == e.categoryId) with
  | none => rw [hx] at hfind; simp at hfind
  | some c => rfl

theorem day_filter_iff (refT t : Int) :
    (civilFromDays (jsDay t) = civilFromDays (jsDay refT)) ↔
      (setHours refT 0 0 0 0 ≤ t ∧ t ≤ setHours refT 23 59 59 999) := by
  rw [jsDay_setHours0, setHoursEnd]
  constructor
  · intro h
    have h1 := (daysFromCivil_civilFromDays (jsDay t)).2.2.2.2
    have h2 := (daysFromCivil_civilFromDays (jsDay refT)).2.2.2.2
    rw [h] at h1
    have hj : jsDay t = jsDay refT := h1.symm.trans h2
    unfold jsDay at hj ⊢
    omega
  · rintro ⟨ha, hb⟩
    have hj : jsDay t = jsDay refT := by unfold jsDay at *; omega
    rw [hj]

theorem month_filter_iff (refT t : Int)
    (hY : ¬ (0 ≤ getFullYear refT ∧ getFullYear refT ≤ 99)) :
    (getFullYear t = getFullYear refT ∧ getMonth t = getMonth refT) ↔
      (mkDate (getFullYear refT) (getMonth refT) 1 0 0 0 0 ≤ t ∧
       t ≤ mkDate (getFullYear refT) (getMonth refT + 1) 0 23 59 59 999) := by
  obtain ⟨Y, hYeq⟩ : ∃ x, getFullYear refT = x := ⟨_, rfl⟩
  obtain ⟨M, hMeq⟩ : ∃ x, getMonth refT = x := ⟨_, rfl⟩
  obtain ⟨hM0, hM1⟩ := getMonth_bounds refT
  rw [hYeq] at hY
  rw [hMeq] at hM0 hM1
  rw [hYeq, hMeq, mkDate_month_start Y M hY hM0 hM1, mkDate_month_end Y M hY hM0 hM1]
  have hmm := month_mem (jsDay t) Y (M + 1) (by omega) (by omega)
  unfold getFullYear getMonth
  constructor
  · rintro ⟨h1, h2⟩
    have hr := hmm.mp ⟨h1, by omega⟩
    rw [daysFromCivil_linear] at hr
    unfold jsDay at hr
    omega
  · rintro ⟨h1, h2⟩
    have hj : daysFromCivil Y (M + 1) 1 ≤ jsDay t ∧
        jsDay t ≤ daysFromCivil Y (M + 1) 1 + daysInMonth Y (M + 1) - 1 := by
      unfold jsDay
      omega
    have hr := hmm.mpr hj
    exact ⟨hr.1, by omega⟩

theorem mkDate_year_start (Y : Int) (hY : ¬ (0 ≤ Y ∧ Y ≤ 99)) :
    mkDate Y 0 1 0 0 0 0 = daysFromCivil Y 1 1 * 86400000 := by
  have h := mkDate_month_start Y 0 hY (le_refl 0) (by omega)
  rw [show (0:Int) + 1 = 1 from rfl] at h
  exact h

theorem mkDate_year_end (Y : Int) (hY : ¬ (0 ≤ Y ∧ Y ≤ 99)) :
    mkDate Y 11 31 23 59 59 999 = daysFromCivil Y 12 31 * 86400000 + 86399999 := by
  simp only [mkDate]
  rw [if_neg hY, makeDay_std Y 11 31 (by omega) (by omega), daysFromCivil_linear Y 12 31]
  unfold makeTime
  ring_nf

theorem year_filter_iff (refT t : Int)
    (hY : ¬ (0 ≤ getFullYear refT ∧ getFullYear refT ≤ 99)) :
    (getFullYear t = getFullYear refT) ↔
      (mkDate (getFullYear refT) 0 1 0 0 0 0 ≤ t ∧
       t ≤ mkDate (getFullYear refT) 11 31 23 59 59 999) := by
  obtain ⟨Y, hYeq⟩ : ∃ x, getFullYear refT = x := ⟨_, rfl⟩
  rw [hYeq] at hY
  rw [hYeq, mkDate_year_start Y hY, mkDate_year_end Y hY]
  have hym := year_mem (jsDay t) Y
  unfold getFullYear
  constructor
  · intro h1
    have hr := hym.mp h1
    unfold jsDay at hr
    omega
  · rintro ⟨h1, h2⟩
    refine hym.mpr ?_
    unfold jsDay
    omega

theorem decideAnd (p q : Prop) [Decidable p] [Decidable q] :
    decide (p ∧ q) = (decide p && decide q) := by
  by_cases hp : p <;> by_cases hq : q <;> simp [hp, hq]

theorem memPeriodFilter_day_eq (refT : Int) (e : Expense) :
    memPeriodFilter "day" refT e =
      (decide (setHours refT 0 0 0 0 ≤ e.date) &&
       decide (e.date ≤ setHours refT 23 59 59 999)) := by
  unfold memPeriodFilter
  rw [if_pos rfl, decide_eq_decide.mpr (day_filter_iff refT e.date), decideAnd]

theorem memPeriodFilter_week_eq (refT : Int) (e : Expense) :
    memPeriodFilter "week" refT e =
      (decide (weekStartT refT ≤ e.date) && decide (e.date ≤ weekEndT refT)) := by
  unfold memPeriodFilter
  rw [if_neg (by decide), if_pos rfl, decideAnd]

theorem memPeriodFilter_month_eq (refT : Int) (e : Expense)
    (hY : ¬ (0 ≤ getFullYear refT ∧ getFullYear refT ≤ 99)) :
    memPeriodFilter "month" refT e =
      (decide (mkDate (getFullYear refT) (getMonth refT) 1 0 0 0 0 ≤ e.date) &&
       decide (e.date ≤ mkDate (getFullYear refT) (getMonth refT + 1) 0 23 59 59 999)) := by
  unfold memPeriodFilter
  rw [if_neg (by decide), if_neg (by decide), if_pos rfl,
    decide_eq_decide.mpr (month_filter_iff refT e.date hY), decideAnd]

theorem memPeriodFilter_year_eq (refT : Int) (e : Expense)
    (hY : ¬ (0 ≤ getFullYear refT ∧ getFullYear refT ≤ 99)) :
    memPeriodFilter "year" refT e =
      (decide (mkDate (getFullYear refT) 0 1 0 0 0 0 ≤ e.date) &&
       decide (e.date ≤ mkDate (getFullYear refT) 11 31 23 59 59 999)) := by
  unfold memPeriodFilter
  rw [if_neg (by decide), if_neg (by decide), if_neg (by decide), if_pos rfl,
    decide_eq_decide.mpr (year_filter_iff refT e.date hY), decideAnd]

/-- C4 (amended): for every store satisfying the foreign-key invariant (with
category rows keyed by their id) and every valid period unit — for `month` and
`year` additionally excluding reference dates whose civil year is in the
constructor's legacy 0..99 range — the relational backend returns exactly the
in-memory backend's expenses and category totals. -/
theorem c4_backend_equivalence (s : MemState) (u : Int) (p : String) (refT : Int)
    (hfk : FkInv s) (hwf : ∀ q ∈ s.categories, q.1 = (q.2).id)
    (hp : p = "day" ∨ p = "week" ∨ p = "month" ∨ p = "year")
    (hY : (p = "month" ∨ p = "year") →
      ¬ (0 ≤ getFullYear refT ∧ getFullYear refT ≤ 99)) :
    dbGetExpensesByUserIdAndPeriod s u p refT =
      .ok (memGetExpensesByUserIdAndPeriod s u p refT) ∧
    dbGetCategoryTotalsByPeriod s u p refT =
      .ok (memGetCategoryTotalsByPeriod s u p refT) := by
  have key : ∀ lo hi : Int,
      (∀ e : Expense, (e.userId == u && (decide (lo ≤ e.date) && decide (e.date ≤ hi))) =
        (e.userId == u && memPeriodFilter p refT e)) →
      dbRangeRows s u lo hi = memGetExpensesByUserIdAndPeriod s u p refT := by
    intro lo hi hpt
    unfold dbRangeRows memGetExpensesByUserIdAndPeriod
    rw [List.filter_congr (fun e _ => hpt e)]
    apply dbJoinRows_eq_map s _ hwf
    intro e he
    apply mapGet_isSome_of_fk s hfk hwf e
    exact (List.mem_filter.mp (sortByDateDesc_mem.mp he)).1
  have main : ∀ lo hi : Int, dbPeriodRange p refT = .ok (lo, hi) →
      (∀ e : Expense, (e.userId == u && (decide (lo ≤ e.date) && decide (e.date ≤ hi))) =
        (e.userId == u && memPeriodFilter p refT e)) →
      dbGetExpensesByUserIdAndPeriod s u p refT =
        .ok (memGetExpensesByUserIdAndPeriod s u p refT) ∧
      dbGetCategoryTotalsByPeriod s u p refT =
        .ok (memGetCategoryTotalsByPeriod s u p refT) := by
    intro lo hi hrange hpt
    have hrows := key lo hi hpt
    constructor
    · unfold dbGetExpensesByUserIdAndPeriod
      rw [hrange]
      simp only [Except.map]
      exact congrArg Except.ok hrows
    · unfold dbGetCategoryTotalsByPeriod
      rw [hrange]
      simp only [Except.map]
      refine congrArg Except.ok ?_
      show memCategoryTotalsFrom s (dbRangeRows s u lo hi) = _
      rw [hrows]
      rfl
  rcases hp with rfl | rfl | rfl | rfl
  · refine main (setHours refT 0 0 0 0) (setHours refT 23 59 59 999) ?_ ?_
    · unfold dbPeriodRange
      rw [if_pos rfl]
    · intro e
      rw [memPeriodFilter_day_eq]
  · refine main (weekStartT refT) (weekEndT refT) ?_ ?_
    · unfold dbPeriodRange
      rw [if_neg (by decide), if_pos rfl]
    · intro e
      rw [memPeriodFilter_week_eq]
  · refine main (mkDate (getFullYear refT) (getMonth refT) 1 0 0 0 0)
      (mkDate (getFullYear refT) (getMonth refT + 1) 0 23 59 59 999) ?_ ?_
    · exact dbPeriodRange_month refT
    · intro e
      rw [memPeriodFilter_month_eq refT e (hY (Or.inl rfl))]
  · refine main (mkDate (getFullYear refT) 0 1 0 0 0 0)
      (mkDate (getFullYear refT) 11 31 23 59 59 999) ?_ ?_
    · unfold dbPeriodRange
      rw [if_neg (by decide), if_neg (by decide), if_neg (by decide), if_pos rfl]
    · intro e
      rw [memPeriodFilter_year_eq refT e (hY (Or.inr rfl))]

/-- C4 counterexample: on a store violating the foreign-key invariant the two
backends disagree — the inner join drops the dangling expense that
`MemStorage` still returns (with an undefined category). -/
theorem c4_counterexample :
    memGetExpensesByUserIdAndPeriod
        ⟨[], [], [(1, ⟨1, 1, 10, 999, none, none, 0, none, none, "manual", 0⟩)], 1, 1, 2⟩
        1 "day" 0 =
      [⟨⟨1, 1, 10, 999, none, none, 0, none, none, "manual", 0⟩, none⟩] ∧
    dbGetExpensesByUserIdAndPeriod
        ⟨[], [], [(1, ⟨1, 1, 10, 999, none, none, 0, none, none, "manual", 0⟩)], 1, 1, 2⟩
        1 "day" 0 = .ok [] := by
  constructor
  · decide
  · decide

theorem c4_backend_equivalence_witness :
    dbGetExpensesByUserIdAndPeriod (initialState 0) 1 "day" 0 =
      .ok (memGetExpensesByUserIdAndPeriod (initialState 0) 1 "day" 0) ∧
    dbGetCategoryTotalsByPeriod (initialState 0) 1 "day" 0 =
      .ok (memGetCategoryTotalsByPeriod (initialState 0) 1 "day" 0) :=
  c4_backend_equivalence (initialState 0) 1 "day" 0 (by decide) (by decide) (Or.inl rfl)
    (by decide)

def c7store : MemState :=
  ⟨[], [(1, ⟨1, "Food", "fas fa-utensils", "blue"⟩)],
   [(1, ⟨1, 1, 50, 1, none, none, 8640000000000, none, none, "manual", 0⟩)], 1, 2, 2⟩

theorem c7_change_percent_witness :
    sumAmounts ([] : List ExpenseWithCategory) = 0 ∧
    (⟨50, 1, (jsRound 0 : ℚ) / 100, 3000, "day", 8640000000000⟩ :
        PeriodSummary).changePercent = 0 := by
  have h1 : dbGetExpensesByUserIdAndPeriod c7store 1 "day" 8640000000000 =
      .ok [⟨⟨1, 1, 50, 1, none, none, 8640000000000, none, none, "manual", 0⟩,
        some ⟨1, "Food", "fas fa-utensils", "blue"⟩⟩] := by decide
  have h2 : dbGetExpensesByUserIdAndPeriod c7store 1 "day"
      (prevDateOf "day" 8640000000000) = .ok [] := by decide
  have hout : routePeriodSummary c7store "day" 8640000000000 =
      .ok ⟨50, 1, (jsRound 0 : ℚ) / 100, 3000, "day", 8640000000000⟩ := by
    unfold routePeriodSummary
    rw [h1, h2]
    norm_num [sumAmounts]
  exact ⟨by decide,
    ((c7_change_percent c7store "day" 8640000000000 0 0).1
      ⟨50, 1, (jsRound 0 : ℚ) / 100, 3000, "day", 8640000000000⟩
      [⟨⟨1, 1, 50, 1, none, none, 8640000000000, none, none, "manual", 0⟩,
        some ⟨1, "Food", "fas fa-utensils", "blue"⟩⟩]
      []
      h1 h2 hout).2 (by decide)⟩

theorem c6_week_window_witness :
    getDay (3 * 86400000) = 0 ∧ weekStartT (3 * 86400000) = jsDay (3 * 86400000) * 86400000 :=
  ⟨by decide, (c6_week_window (3 * 86400000)).2.2.2.2.2.2.2.2.2 (by decide)⟩
